import Mathlib

/-!
Verification of the scheduling engine of the adaptive timetable generation
system.  The definitions below are a shallow embedding of
`src/algorithms/dsa_scheduler.py` (classes `TimetableScheduler` and
`ConstraintSatisfactionScheduler`) and `src/algorithms/constraint_validator.py`
(class `ConstraintValidator`).  Python dictionaries that are only ever indexed
are modelled as total functions (matching `defaultdict` semantics); Python
dictionaries that are iterated are modelled as association lists preserving
insertion order.  Python integers are `Int`; optional strings are
`Option String`, with the helper `truthyS` reproducing Python truthiness of an
`Optional[str]` (both `None` and the empty string are falsy).  Violation
message strings are abstracted to their constraint tags; the surrounding
control flow is translated verbatim.
-/

set_option maxHeartbeats 1000000
set_option linter.unusedVariables false

namespace Timetable

/-- Python truthiness of an `Optional[str]` value: `None` and `""` are falsy. -/
def truthyS : Option String → Bool
  | none => false
  | some s => !(s == "")

/-- Lexicographic strict comparison of character lists by code point,
matching Python string comparison. -/
def strLtAux : List Char → List Char → Bool
  | [], [] => false
  | [], _ :: _ => true
  | _ :: _, [] => false
  | a :: as, b :: bs =>
    if a.toNat < b.toNat then true
    else if a.toNat == b.toNat then strLtAux as bs
    else false

/-- Python `a < b` on strings. -/
def str_lt (a b : String) : Bool := strLtAux a.data b.data

/-- Python `a <= b` on strings (total order, so the negation of `b < a`). -/
def str_le (a b : String) : Bool := !(str_lt b a)

/-- Stable insertion used by `sorted_by`: the new element goes after every
element whose key is less than or equal to its own, which is exactly the
stability guarantee of the Python `sorted` builtin. -/
def insort_by {α : Type} (key : α → String) (x : α) : List α → List α
  | [] => [x]
  | y :: ys => if str_le (key y) (key x) then y :: insort_by key x ys else x :: y :: ys

/-- Python `sorted(l, key=key)`: a stable sort by a string key. -/
def sorted_by {α : Type} (key : α → String) (l : List α) : List α :=
  l.foldl (fun acc a => insort_by key a acc) []

/-- Python `range(a, b)` over integers. -/
def intRange (a b : Int) : List Int :=
  (List.range (b - a).toNat).map (fun (i : Nat) => a + (i : Int))

/-- A (day, period) slot key. -/
abbrev Slot := String × Int

/-- Embedding of the `TimeSlotEntry` dataclass.  The Python field `section`
is a reserved word in Lean and is rendered `sect`. -/
structure TimeSlotEntry where
  day : String
  period : Int
  sect : String
  subject_code : String
  subject_name : String
  subject_short : String
  subject_type : String
  faculty_id : String
  faculty_name : String
  room_number : String
  batch : Option String
  is_lab_continuation : Bool
deriving DecidableEq

/-- Embedding of the `Subject` catalog record (the fields the scheduler and
validator read). -/
structure Subject where
  code : String
  name : String
  short_name : String
  subject_type : String
  hours_per_week : Int
  lab_duration : Int
  batches_required : Bool
deriving DecidableEq

/-- Embedding of the `Faculty` catalog record (the fields the scheduler reads). -/
structure Faculty where
  id : String
  short_name : String
  subjects : List String
  unavailable_slots : List Slot
deriving DecidableEq

/-- Embedding of the `Room` catalog record. -/
structure Room where
  number : String
  room_type : String
deriving DecidableEq

/-- A Python `dict[(day, period), list[TimeSlotEntry]]` in insertion order. -/
abbrev SlotMap := List (Slot × List TimeSlotEntry)

/-- Dictionary lookup on a slot map (first binding wins, as in a dict). -/
def smLookup : SlotMap → Slot → Option (List TimeSlotEntry)
  | [], _ => none
  | (k0, es) :: rest, k => if k0 = k then some es else smLookup rest k

/-- Python `key in dict` on a slot map. -/
def smContains (m : SlotMap) (k : Slot) : Bool := (smLookup m k).isSome

/-- Python `dict.get(key, [])` on a slot map. -/
def smGetD (m : SlotMap) (k : Slot) : List TimeSlotEntry := (smLookup m k).getD []

/-- Append one entry to the list at a key, creating the key at the end of the
dictionary when absent: the effect of `add_entry` on one of the dict indexes. -/
def smAppend : SlotMap → Slot → TimeSlotEntry → SlotMap
  | [], k, e => [(k, [e])]
  | (k0, es) :: rest, k, e =>
    if k0 = k then (k0, es ++ [e]) :: rest else (k0, es) :: smAppend rest k e

/-- Filter every copy of an entry out of the list at a key, deleting the key
when the list becomes empty: the effect of `remove_entry` on the timetable. -/
def smRemoveEntry : SlotMap → Slot → TimeSlotEntry → SlotMap
  | [], _, _ => []
  | (k0, es) :: rest, k, e =>
    if k0 = k then
      (let es2 := es.filter (fun x => !(x == e))
       if es2.isEmpty then rest else (k0, es2) :: rest)
    else (k0, es) :: smRemoveEntry rest k e

/-- The mutable scheduler state: the three occupancy indexes and the
per-section subject-hour counter of `TimetableScheduler`.  `timetable` keys
sections initialised by `initialize_state`; `teacher_schedule` and
`room_schedule` are `defaultdict`s and hence total functions. -/
structure GState where
  timetable : String → SlotMap
  teacher_schedule : String → Slot → List TimeSlotEntry
  room_schedule : String → Slot → List TimeSlotEntry
  subject_hours_allocated : String → String → Int

/-- The empty state produced by `initialize_state` (every section map empty,
every counter zero). -/
def initState : GState :=
  { timetable := fun _ => []
    teacher_schedule := fun _ _ => []
    room_schedule := fun _ _ => []
    subject_hours_allocated := fun _ _ => 0 }

/-- Tags of the hard-constraint violations appended by
`check_hard_constraints`; the formatted message strings are abstracted away. -/
inductive HV where
  | sectionBusy
  | batchBusy
  | sectionLab
  | theoryTwice
  | teacherBusy
  | roomBusy
deriving DecidableEq

/-- Check 1 of `check_hard_constraints`: the section clash with its three
branches (plain double booking, duplicated batch, theory over a lab). -/
def sectionClashViolations (entry : TimeSlotEntry) (s : GState) : List HV :=
  match smLookup (s.timetable entry.sect) (entry.day, entry.period) with
  | none => []
  | some existing =>
    if existing.isEmpty then []
    else if !(existing.any (fun e => truthyS e.batch)) && !(truthyS entry.batch) then
      [HV.sectionBusy]
    else if truthyS entry.batch then
      (if existing.any (fun e => e.batch == entry.batch) then [HV.batchBusy] else [])
    else if !(truthyS entry.batch) && existing.any (fun e => truthyS e.batch) then
      [HV.sectionLab]
    else []

/-- Check 2 of `check_hard_constraints`: the same theory subject twice in one
day (labs and continuations are exempt). -/
def theoryTwiceViolations (entry : TimeSlotEntry) (s : GState) : List HV :=
  if entry.subject_type == "theory" && !entry.is_lab_continuation then
    (if (s.timetable entry.sect).any
          (fun kv => kv.1.1 == entry.day &&
            kv.2.any (fun e => e.subject_code == entry.subject_code))
     then [HV.theoryTwice] else [])
  else []

/-- Check 3 of `check_hard_constraints`: the teacher clash, whose only escape
is that the candidate and the colliding entry both carry truthy batch tags
and belong to the same section. -/
def teacherClashViolations (entry : TimeSlotEntry) (s : GState) : List HV :=
  if (s.teacher_schedule entry.faculty_id (entry.day, entry.period)).any
      (fun e => !(truthyS entry.batch && truthyS e.batch && entry.sect == e.sect))
  then [HV.teacherBusy] else []

/-- Check 4 of `check_hard_constraints`: the room clash. -/
def roomClashViolations (entry : TimeSlotEntry) (s : GState) : List HV :=
  if !(s.room_schedule entry.room_number (entry.day, entry.period)).isEmpty then
    [HV.roomBusy]
  else []

/-- Embedding of `TimetableScheduler.check_hard_constraints`: the four checks
in source order. -/
def check_hard_constraints (entry : TimeSlotEntry) (s : GState) : List HV :=
  sectionClashViolations entry s ++ theoryTwiceViolations entry s ++
    teacherClashViolations entry s ++ roomClashViolations entry s

/-- Embedding of `TimetableScheduler.add_entry`: insert into the three indexes
and bump the hour counter when the hard checks pass, reject otherwise. -/
def add_entry (entry : TimeSlotEntry) (s : GState) : Option GState :=
  if (check_hard_constraints entry s).isEmpty then
    some
      { timetable := fun sec =>
          if sec = entry.sect then smAppend (s.timetable sec) (entry.day, entry.period) entry
          else s.timetable sec
        teacher_schedule := fun f k =>
          if f = entry.faculty_id ∧ k = (entry.day, entry.period) then
            s.teacher_schedule f k ++ [entry]
          else s.teacher_schedule f k
        room_schedule := fun r k =>
          if r = entry.room_number ∧ k = (entry.day, entry.period) then
            s.room_schedule r k ++ [entry]
          else s.room_schedule r k
        subject_hours_allocated := fun sec c =>
          if sec = entry.sect ∧ c = entry.subject_code then
            s.subject_hours_allocated sec c + 1
          else s.subject_hours_allocated sec c }
  else none

/-- Embedding of `TimetableScheduler.remove_entry`: filter the entry out of
the three indexes and decrement the hour counter unconditionally. -/
def remove_entry (entry : TimeSlotEntry) (s : GState) : GState :=
  { timetable := fun sec =>
      if sec = entry.sect then
        smRemoveEntry (s.timetable sec) (entry.day, entry.period) entry
      else s.timetable sec
    teacher_schedule := fun f k =>
      if f = entry.faculty_id ∧ k = (entry.day, entry.period) then
        (s.teacher_schedule f k).filter (fun e => !(e == entry))
      else s.teacher_schedule f k
    room_schedule := fun r k =>
      if r = entry.room_number ∧ k = (entry.day, entry.period) then
        (s.room_schedule r k).filter (fun e => !(e == entry))
      else s.room_schedule r k
    subject_hours_allocated := fun sec c =>
      if sec = entry.sect ∧ c = entry.subject_code then
        s.subject_hours_allocated sec c - 1
      else s.subject_hours_allocated sec c }

/-- Embedding of `TimetableScheduler.get_available_faculty`: filter the
id-sorted faculty list by qualification, current occupancy (with the
batch-lab reuse exception) and the unavailability mask, then sort again by id
as the source does. -/
def get_available_faculty (s : GState) (subject_code day : String) (period : Int)
    (faculty_list : List Faculty) (for_batch_lab : Bool) (sect? : Option String) :
    List Faculty :=
  let avail := (sorted_by Faculty.id faculty_list).filter (fun f =>
    f.subjects.contains subject_code &&
    (let existing := s.teacher_schedule f.id (day, period)
     (if !existing.isEmpty then
        (if for_batch_lab && truthyS sect? then
           existing.all (fun e => truthyS e.batch && some e.sect == sect?)
         else false)
      else true)) &&
    !(f.unavailable_slots.contains (day, period)))
  sorted_by Faculty.id avail

/-- Embedding of `TimetableScheduler.get_available_rooms`: free rooms of the
requested type in stable number order, falling back to free classrooms when
allowed and nothing of the requested type is free. -/
def get_available_rooms (s : GState) (room_type day : String) (period : Int)
    (room_list : List Room) (fallback_to_any : Bool) : List Room :=
  let avail := (sorted_by Room.number room_list).filter (fun r =>
    (r.room_type == room_type || room_type == "any") &&
    (s.room_schedule r.number (day, period)).isEmpty)
  let avail2 :=
    if avail.isEmpty && fallback_to_any &&
        !(["classroom", "computer_lab", "electronics_lab"].contains room_type) then
      (sorted_by Room.number room_list).filter (fun r =>
        r.room_type == "classroom" && (s.room_schedule r.number (day, period)).isEmpty)
    else avail
  sorted_by Room.number avail2

/-- Boolean test that one character list occurs as a contiguous sublist of
another; used for the Python `needle in haystack` substring tests. -/
def listStartsWith : List Char → List Char → Bool
  | _, [] => true
  | [], _ :: _ => false
  | a :: as, b :: bs => a == b && listStartsWith as bs

/-- Python `needle in haystack` on strings. -/
def strContains (hay needle : String) : Bool :=
  (List.range (hay.data.length + 1)).any
    (fun i => listStartsWith (hay.data.drop i) needle.data)

/-- ASCII lowering of one character, as Python `str.lower` acts on the ASCII
identifiers of this catalog. -/
def charLower (c : Char) : Char :=
  if 65 ≤ c.toNat ∧ c.toNat ≤ 90 then Char.ofNat (c.toNat + 32) else c

/-- Python `s.lower()`. -/
def lowerStr (s : String) : String := String.mk (s.data.map charLower)

/-- ASCII raising of one character, as Python `str.upper` acts on the ASCII
identifiers of this catalog. -/
def charUpper (c : Char) : Char :=
  if 97 ≤ c.toNat ∧ c.toNat ≤ 122 then Char.ofNat (c.toNat - 32) else c

/-- Python `s.upper()`. -/
def upperStr (s : String) : String := String.mk (s.data.map charUpper)

/-- Embedding of `ConstraintSatisfactionScheduler._get_room_type_for_subject`. -/
def get_room_type_for_subject (subject : Subject) : String :=
  if subject.subject_type == "lab" then
    (if strContains (lowerStr subject.name) "computer" ||
        strContains (lowerStr subject.name) "programming" then "computer_lab"
     else if strContains (lowerStr subject.name) "electronics" ||
        strContains (lowerStr subject.name) "digital" then "electronics_lab"
     else "computer_lab")
  else if subject.subject_type == "mini_project" then "computer_lab"
  else if subject.subject_type == "yoga" then "activity_room"
  else if subject.subject_type == "tyl" || subject.subject_type == "9lpa" then "seminar_hall"
  else if subject.subject_type == "club" then "activity_room"
  else "classroom"

/-- Embedding of `ConstraintSatisfactionScheduler._select_room_for_subject`.
A missing home room (a `KeyError` in the source, unreachable because home
rooms cover every initialised section) is rendered as no room. -/
def select_room_for_subject (s : GState) (sect : String) (subject : Subject)
    (day : String) (period : Int) (room_list : List Room)
    (home_rooms : String → Option String) : Option String :=
  if ["theory", "audit", "tyl", "9lpa"].contains subject.subject_type then
    match home_rooms sect with
    | none => none
    | some room_num =>
      if (s.room_schedule room_num (day, period)).isEmpty then some room_num
      else
        match get_available_rooms s "classroom" day period room_list false with
        | [] => none
        | r :: _ => some r.number
  else
    let room_type := get_room_type_for_subject subject
    let fallback := ["tyl", "9lpa", "yoga", "club", "audit"].contains subject.subject_type
    match get_available_rooms s room_type day period room_list fallback with
    | [] => none
    | r :: _ => some r.number

/-- Embedding of `ConstraintSatisfactionScheduler._assign_home_classrooms`:
pair the i-th section (sorted) with the i-th classroom (sorted); the source
raises `ValueError` when classrooms run short, rendered here as `none`. -/
def assign_home_classrooms (sections : List String) (room_list : List Room) :
    Option (String → Option String) :=
  let classrooms := sorted_by Room.number
    (room_list.filter (fun r => r.room_type == "classroom"))
  if classrooms.length < sections.length then none
  else some (fun sec =>
    (List.zip (sorted_by id sections) (classrooms.map Room.number)).lookup sec)

/-- Embedding of `ConstraintSatisfactionScheduler._is_theory_session` applied
to a known subject. -/
def is_theory_session (subject : Subject) : Bool :=
  ["theory", "audit", "tyl", "9lpa", "yoga", "club"].contains subject.subject_type

/-- The same predicate applied to `subjects_by_code.get(...)`, which may be
`None`. -/
def is_theory_sessionO : Option Subject → Bool
  | none => false
  | some subject => is_theory_session subject

/-- Embedding of `ConstraintSatisfactionScheduler._subject_duration`. -/
def subject_duration (subject : Subject) : Int :=
  if subject.subject_type == "lab" then subject.lab_duration else 1

/-- Embedding of `ConstraintSatisfactionScheduler._can_start_two_hour_block`. -/
def can_start_two_hour_block (start_period : Int) : Bool :=
  start_period == 1 || start_period == 3 || start_period == 5

/-- Scheduler configuration: the four fields of the Python config consumed by
the greedy path. -/
structure Config where
  days : List String
  periods_per_day : Int
  max_consecutive_theory : Int
  limit_first_period : Int
deriving DecidableEq

/-- The default configuration of `TimetableScheduler.__init__`. -/
def defaultConfig : Config :=
  { days := ["Monday", "Tuesday", "Wednesday", "Thursday", "Friday", "Saturday"]
    periods_per_day := 7
    max_consecutive_theory := 3
    limit_first_period := 3 }

/-- Embedding of `ConstraintSatisfactionScheduler._build_day_targets` as the
association list built by the source loop (day order preserved).  Python `//`
and `%` are floor division and floor remainder, i.e. `Int.ediv`/`Int.emod`
for the positive divisor `len(days)`. -/
def build_day_targets_list (cfg : Config) (required_periods : Int) : List (String × Int) :=
  let base := required_periods.ediv (cfg.days.length : Int)
  let rem := required_periods.emod (cfg.days.length : Int)
  cfg.days.enum.map (fun p => (p.2, base + (if (p.1 : Int) < rem then 1 else 0)))

/-- Lookup form of the day-target table (every configured day is present). -/
def build_day_targets (cfg : Config) (required_periods : Int) : String → Int :=
  fun day => ((build_day_targets_list cfg required_periods).lookup day).getD 0

/-- Minimum of a list of integers with explicit default, for Python `min`. -/
def listMinI (d : Int) : List Int → Int
  | [] => d
  | x :: xs => min (listMinI x xs) x

/-- Maximum of a list of integers with explicit default, for Python `max`. -/
def listMaxI (d : Int) : List Int → Int
  | [] => d
  | x :: xs => max (listMaxI x xs) x

/-- The per-day window computation inside
`ConstraintSatisfactionScheduler._build_day_blocks`, translated branch by
branch (the source local `morning_slots` is computed but never read and is
omitted). -/
def blockForDay (cfg : Config) (target : Int) (fixed_periods : List Int) : Int × Int :=
  let fixed_min : Int := if fixed_periods.isEmpty then 0 else listMinI 0 fixed_periods
  let fixed_max : Int := if fixed_periods.isEmpty then 0 else listMaxI 0 fixed_periods
  let start1 : Int :=
    if target ≥ 6 then 1
    else if target = 5 then 2
    else if target = 4 then 2
    else 2
  let end1 : Int :=
    if target ≥ 6 then target
    else if target = 5 then 6
    else if target = 4 then 5
    else min 4 (2 + target - 1)
  let start2 : Int :=
    if !fixed_periods.isEmpty then
      (let s1 := if fixed_min < start1 then fixed_min else start1
       if fixed_min ≥ 5 then (if s1 > 2 then 2 else s1) else s1)
    else start1
  let end2 : Int :=
    if !fixed_periods.isEmpty then
      (if fixed_min ≥ 5 then fixed_max
       else (if fixed_max > end1 then fixed_max else end1))
    else end1
  let end3 : Int := if end2 > cfg.periods_per_day then cfg.periods_per_day else end2
  if end3 - start2 + 1 < target then
    (if start2 > 1 then (max 1 (end3 - target + 1), end3)
     else (start2, min cfg.periods_per_day (start2 + target - 1)))
  else (start2, end3)

/-- Embedding of `ConstraintSatisfactionScheduler._build_day_blocks`: one
window per configured day. -/
def build_day_blocks (cfg : Config) (day_targets : String → Int)
    (fixed_periods_by_day : String → List Int) : String → Int × Int :=
  fun day => blockForDay cfg (day_targets day) (fixed_periods_by_day day)

/-- The round-robin selector state of
`ConstraintSatisfactionScheduler._init_round_robin_state`: the three maps are
total functions defaulting to 0, matching `dict.get(c, 0)`. -/
structure RR where
  codes : List String
  weights : String → Int
  remaining : String → Int
  current : String → Int

/-- Association lookup with default 0 used to build the selector maps. -/
def assocGetI (l : List (String × Int)) (c : String) : Int := (l.lookup c).getD 0

/-- Embedding of `ConstraintSatisfactionScheduler._init_round_robin_state`. -/
def init_round_robin_state (subjects : List Subject) (fixed_subject_codes : List String) :
    RR :=
  let eligible := sorted_by Subject.code
    (subjects.filter (fun s => !(fixed_subject_codes.contains s.code)))
  { codes := eligible.map Subject.code
    weights := assocGetI (eligible.map (fun s => (s.code, s.hours_per_week)))
    remaining := assocGetI (eligible.map (fun s => (s.code, s.hours_per_week)))
    current := fun _ => 0 }

/-- The source loop testing whether a theory subject is already placed today
for a section (`check_hard_constraints` rule 2 and the selector both use it). -/
def already_today (s : GState) (sect day subject_code : String) : Bool :=
  (s.timetable sect).any (fun kv =>
    kv.1.1 == day && kv.2.any (fun e => e.subject_code == subject_code))

/-- Embedding of `ConstraintSatisfactionScheduler._feasible_single_block`. -/
def feasible_single_block (s : GState) (sect : String) (subject : Subject)
    (day : String) (start_period duration : Int) (faculty_list : List Faculty)
    (room_list : List Room) (home_rooms : String → Option String) : Bool :=
  (intRange start_period (start_period + duration)).all (fun p =>
    !(smContains (s.timetable sect) (day, p)) &&
    !(get_available_faculty s subject.code day p faculty_list false none).isEmpty &&
    (select_room_for_subject s sect subject day p room_list home_rooms).isSome)

/-- Embedding of `ConstraintSatisfactionScheduler._feasible_parallel_batch_block`. -/
def feasible_parallel_batch_block (s : GState) (sect : String) (subject : Subject)
    (day : String) (start_period duration : Int) (batches : List String)
    (faculty_list : List Faculty) (room_list : List Room) : Bool :=
  let room_type := get_room_type_for_subject subject
  (intRange start_period (start_period + duration)).all (fun p =>
    !(smContains (s.timetable sect) (day, p)) &&
    !(get_available_faculty s subject.code day p faculty_list true (some sect)).isEmpty &&
    (get_available_rooms s room_type day p room_list false).length ≥ batches.length)

/-- The choice record assembled by the subject selector (the transient
`score` key of the fallback dictionary is threaded separately). -/
structure Choice where
  subject : Subject
  duration : Int
  is_parallel_lab : Bool
  batches : List String
deriving DecidableEq

/-- One iteration of the candidate loop in
`ConstraintSatisfactionScheduler._select_subject_for_slot`: `none` when the
loop executes `continue` for this code, otherwise the assembled choice, its
score and the `exceeds_consecutive` flag. -/
def evalCandidate (cfg : Config) (s : GState) (sect day : String) (period : Int)
    (day_block : Int × Int) (rr : RR) (subjects_by_code : String → Option Subject)
    (section_batches : String → List String) (home_rooms : String → Option String)
    (faculty_list : List Faculty) (room_list : List Room) (consecutive_theory : Int)
    (code : String) : Option (Choice × Int × Bool) :=
  match subjects_by_code code with
  | none => none
  | some subject =>
    let duration := subject_duration subject
    if rr.remaining code < duration then none
    else
      let exceeds := is_theory_session subject &&
        consecutive_theory + duration > cfg.max_consecutive_theory
      if subject.subject_type == "theory" && already_today s sect day code then none
      else if duration == 2 &&
          (period + 1 > day_block.2 || !(can_start_two_hour_block period) ||
           smContains (s.timetable sect) (day, period) ||
           smContains (s.timetable sect) (day, period + 1)) then none
      else if subject.subject_type == "lab" && subject.batches_required then
        (let batches := section_batches sect
         if batches.isEmpty then none
         else if !(feasible_parallel_batch_block s sect subject day period duration
                    batches faculty_list room_list) then none
         else some
           ({ subject := subject, duration := duration, is_parallel_lab := true,
              batches := batches },
            rr.current code + rr.weights code, exceeds))
      else if !(feasible_single_block s sect subject day period duration
                 faculty_list room_list home_rooms) then none
      else some
        ({ subject := subject, duration := duration,
           is_parallel_lab := subject.subject_type == "lab" && subject.batches_required,
           batches := section_batches sect },
         rr.current code + rr.weights code, exceeds)

/-- The best/fallback accumulation of the candidate loop: `best` keeps the
highest score with a lexicographic tie-break on the subject code, `fallback`
keeps the strictly highest score among consecutive-limit violators. -/
def selFold (f : String → Option (Choice × Int × Bool)) :
    List String → Option (Choice × Int) → Option (Choice × Int) →
    Option (Choice × Int) × Option (Choice × Int)
  | [], best, fallback => (best, fallback)
  | c :: rest, best, fallback =>
    match f c with
    | none => selFold f rest best fallback
    | some (ch, score, exceeds) =>
      if exceeds then
        let fallback2 :=
          match fallback with
          | none => some (ch, score)
          | some (fc, fs) => if score > fs then some (ch, score) else some (fc, fs)
        selFold f rest best fallback2
      else
        let best2 :=
          match best with
          | none => some (ch, score)
          | some (bc, bs) =>
            if score > bs || (score == bs && str_lt ch.subject.code bc.subject.code) then
              some (ch, score)
            else some (bc, bs)
        selFold f rest best2 fallback

/-- The fallback promotion at the end of the candidate loop: the best
survivor, or the best consecutive-limit violator when no survivor exists. -/
def selBestFinal (f : String → Option (Choice × Int × Bool)) (active : List String) :
    Option (Choice × Int) :=
  match (selFold f active none none).1 with
  | some b => some b
  | none => (selFold f active none none).2

/-- Embedding of `ConstraintSatisfactionScheduler._select_subject_for_slot`:
returns the chosen item together with the updated round-robin state (the
source mutates `rr_state` in place). -/
def select_subject_for_slot (cfg : Config) (s : GState) (sect day : String)
    (period : Int) (day_block : Int × Int) (rr : RR)
    (subjects_by_code : String → Option Subject)
    (section_batches : String → List String) (home_rooms : String → Option String)
    (faculty_list : List Faculty) (room_list : List Room)
    (consecutive_theory : Int) : Option (Choice × RR) :=
  let active := rr.codes.filter (fun c => rr.remaining c > 0)
  if active.isEmpty then none
  else
    let total_weight := (active.map rr.weights).sum
    match selBestFinal
      (evalCandidate cfg s sect day period day_block rr subjects_by_code
        section_batches home_rooms faculty_list room_list consecutive_theory)
      active with
    | none => none
    | some (ch, _) =>
      let cur1 := fun c =>
        if active.contains c then rr.current c + rr.weights c else rr.current c
      let chosen := ch.subject.code
      let cur2 := fun c => if c == chosen then cur1 c - total_weight else cur1 c
      let rem2 := fun c => if c == chosen then rr.remaining c - ch.duration
        else rr.remaining c
      some (ch, { rr with current := cur2, remaining := rem2 })

/-- Rollback of a partially placed block: `for e in entries_added:
self.remove_entry(e)`. -/
def rollbackEntries (added : List TimeSlotEntry) (s : GState) : GState :=
  added.foldl (fun acc e => remove_entry e acc) s

/-- Recursive core of `_place_single_block` over the remaining periods,
carrying the already-added entries for rollback. -/
def placeSingleGo (sect : String) (subject : Subject) (day : String)
    (start_period : Int) (faculty_list : List Faculty) (room_list : List Room)
    (home_rooms : String → Option String) :
    List Int → List TimeSlotEntry → GState → Bool × GState
  | [], _, s => (true, s)
  | p :: ps, added, s =>
    let faculty := get_available_faculty s subject.code day p faculty_list false none
    let room := select_room_for_subject s sect subject day p room_list home_rooms
    match faculty, room with
    | [], _ => (false, rollbackEntries added s)
    | _, none => (false, rollbackEntries added s)
    | f0 :: _, some room_num =>
      let entry : TimeSlotEntry :=
        { day := day, period := p, sect := sect, subject_code := subject.code,
          subject_name := subject.name, subject_short := subject.short_name,
          subject_type := subject.subject_type, faculty_id := f0.id,
          faculty_name := f0.short_name, room_number := room_num, batch := none,
          is_lab_continuation := p > start_period }
      match add_entry entry s with
      | some s2 => placeSingleGo sect subject day start_period faculty_list
          room_list home_rooms ps (added ++ [entry]) s2
      | none => (false, rollbackEntries added s)

/-- Embedding of `ConstraintSatisfactionScheduler._place_single_block`. -/
def place_single_block (s : GState) (sect : String) (subject : Subject)
    (day : String) (start_period duration : Int) (faculty_list : List Faculty)
    (room_list : List Room) (home_rooms : String → Option String) : Bool × GState :=
  placeSingleGo sect subject day start_period faculty_list room_list home_rooms
    (intRange start_period (start_period + duration)) [] s

/-- Inner batch loop of `_place_parallel_batch_block` at one period: place one
entry per batch with `rooms[i]` and `faculty[i mod len(faculty)]`. -/
def placeBatchesGo (sect : String) (subject : Subject) (day : String)
    (start_period p : Int) (faculty : List Faculty) (rooms : List Room) :
    List (Nat × String) → List TimeSlotEntry → GState →
    Except GState (List TimeSlotEntry × GState)
  | [], added, s => Except.ok (added, s)
  | (b_idx, batch_name) :: rest, added, s =>
    match faculty.get? (b_idx % faculty.length), rooms.get? b_idx with
    | some f, some r =>
      let entry : TimeSlotEntry :=
        { day := day, period := p, sect := sect, subject_code := subject.code,
          subject_name := subject.name, subject_short := subject.short_name,
          subject_type := subject.subject_type, faculty_id := f.id,
          faculty_name := f.short_name, room_number := r.number,
          batch := some batch_name, is_lab_continuation := p > start_period }
      match add_entry entry s with
      | some s2 => placeBatchesGo sect subject day start_period p faculty rooms
          rest (added ++ [entry]) s2
      | none =>
        -- an `add_entry` rejection rolls back everything added so far,
        -- including entries of earlier batches at this period
        Except.error (rollbackEntries added s)
    | _, _ =>
      -- an out-of-range index would raise in the source; the caller checks
      -- `len(rooms) >= len(batches)` and `faculty` nonempty first, so this
      -- case is unreachable in every call made by the scheduler
      Except.error (rollbackEntries added s)

/-- Recursive core of `_place_parallel_batch_block` over the two periods. -/
def placeParallelGo (sect : String) (subject : Subject) (day : String)
    (start_period : Int) (batches : List String) (faculty_list : List Faculty)
    (room_list : List Room) (room_type : String) :
    List Int → List TimeSlotEntry → GState → Bool × GState
  | [], _, s => (true, s)
  | p :: ps, added, s =>
    let faculty := get_available_faculty s subject.code day p faculty_list true (some sect)
    let rooms := get_available_rooms s room_type day p room_list false
    if faculty.isEmpty || rooms.length < batches.length then
      (false, rollbackEntries added s)
    else
      match placeBatchesGo sect subject day start_period p faculty rooms
          batches.enum added s with
      | Except.ok (added2, s2) => placeParallelGo sect subject day start_period batches
          faculty_list room_list room_type ps added2 s2
      | Except.error s2 => (false, s2)

/-- Embedding of `ConstraintSatisfactionScheduler._place_parallel_batch_block`. -/
def place_parallel_batch_block (s : GState) (sect : String) (subject : Subject)
    (day : String) (start_period duration : Int) (batches : List String)
    (faculty_list : List Faculty) (room_list : List Room) : Bool × GState :=
  placeParallelGo sect subject day start_period batches faculty_list room_list
    (get_room_type_for_subject subject)
    (intRange start_period (start_period + duration)) [] s

/-- The static fixed-slot table of `schedule_greedy` mapping subject short
labels to mandated slots. -/
def fixedSlotTypes (short_name : String) : Option (List Slot) :=
  if short_name == "YOGA" then some [("Wednesday", 6)]
  else if short_name == "CLUB" then some [("Wednesday", 7)]
  else if short_name == "MP" then some [("Thursday", 6), ("Thursday", 7)]
  else if short_name == "PP1" then some [("Thursday", 6), ("Thursday", 7)]
  else none

/-- One fixed-slot placement obligation of Phase A: a section, a fixed-slot
subject, one mandated slot and its index within the subject slot list. -/
structure FixedIt where
  sect : String
  subject : Subject
  slot : Slot
  idx : Nat
deriving DecidableEq

/-- The Phase A obligations in source iteration order: sections sorted, then
subjects sorted by code, then the mandated slots of that subject in table order. -/
def fixedItems (sections : List String) (subjects : List Subject) : List FixedIt :=
  ((sorted_by id sections).map (fun sec =>
    ((sorted_by Subject.code subjects).map (fun sub =>
      match fixedSlotTypes sub.short_name with
      | none => []
      | some slots => slots.enum.map (fun p =>
          { sect := sec, subject := sub, slot := p.2, idx := p.1 : FixedIt }))).flatten)).flatten

/-- The set `fixed_subject_codes` accumulated during Phase A (membership is
all that is ever used). -/
def fixed_subject_codes (subjects : List Subject) : List String :=
  (subjects.filter (fun s => (fixedSlotTypes s.short_name).isSome)).map Subject.code

/-- Phase A bookkeeping: the grid, `fixed_periods_by_section` (a set per
section and day, modelled as a duplicate-free list) and the count
`fixed_scheduled`. -/
structure AState where
  grid : GState
  fixed_periods : String → String → List Int
  fixed_scheduled : Nat

/-- Set insertion into `fixed_periods_by_section[section][day]`. -/
def addFixedPeriod (fp : String → String → List Int) (sect day : String) (p : Int) :
    String → String → List Int :=
  fun s d =>
    if s = sect ∧ d = day then
      (if (fp s d).contains p then fp s d else fp s d ++ [p])
    else fp s d

/-- One fixed-slot placement attempt of Phase A of `schedule_greedy`:
`none` reproduces both `return False` paths (no faculty or room, and an
`add_entry` rejection), each of which leaves the grid as it stands. -/
def tryFixed (faculty_list : List Faculty) (room_list : List Room)
    (home_rooms : String → Option String) (it : FixedIt) (st : AState) :
    Option AState :=
  let day := it.slot.1
  let period := it.slot.2
  let faculty := get_available_faculty st.grid it.subject.code day period
    faculty_list false none
  let room := select_room_for_subject st.grid it.sect it.subject day period
    room_list home_rooms
  match faculty, room with
  | f0 :: _, some room_num =>
    let entry : TimeSlotEntry :=
      { day := day, period := period, sect := it.sect,
        subject_code := it.subject.code, subject_name := it.subject.name,
        subject_short := it.subject.short_name,
        subject_type := it.subject.subject_type, faculty_id := f0.id,
        faculty_name := f0.short_name, room_number := room_num, batch := none,
        is_lab_continuation := it.idx > 0 }
    match add_entry entry st.grid with
    | some g2 => some
        { grid := g2, fixed_periods := addFixedPeriod st.fixed_periods it.sect day period,
          fixed_scheduled := st.fixed_scheduled + 1 }
    | none => none
  | _, _ => none

/-- Phase A of `schedule_greedy`: place every fixed obligation in order; the
first failure aborts immediately with the partial grid. -/
def phaseA (faculty_list : List Faculty) (room_list : List Room)
    (home_rooms : String → Option String) :
    List FixedIt → AState → Except GState AState
  | [], st => Except.ok st
  | it :: rest, st =>
    match tryFixed faculty_list room_list home_rooms it st with
    | none => Except.error st.grid
    | some st2 => phaseA faculty_list room_list home_rooms rest st2

/-- The `subjects_by_code` dictionary (later bindings win, as in a Python
dict comprehension). -/
def subjectsByCode (subjects : List Subject) : String → Option Subject :=
  fun c => (subjects.reverse.map (fun s => (s.code, s))).lookup c

/-- One period of the Phase B fill loop: skip (and track consecutive theory)
when the slot is already occupied, consult the selector otherwise, and place
the chosen block; a placement failure is fatal and carries the partial grid. -/
def stepPeriod (cfg : Config) (subjects_by_code : String → Option Subject)
    (section_batches : String → List String) (home_rooms : String → Option String)
    (faculty_list : List Faculty) (room_list : List Room) (sect day : String)
    (day_block : Int × Int) (p : Int) (g : GState) (rr : RR)
    (consecutive_theory : Int) : Except GState (GState × RR × Int) :=
  match smLookup (g.timetable sect) (day, p) with
  | some entries =>
    Except.ok (g, rr,
      if entries.any (fun e => is_theory_sessionO (subjects_by_code e.subject_code))
      then consecutive_theory + 1 else 0)
  | none =>
    match select_subject_for_slot cfg g sect day p day_block rr subjects_by_code
        section_batches home_rooms faculty_list room_list consecutive_theory with
    | none => Except.ok (g, rr, 0)
    | some (ch, rr2) =>
      let res :=
        if ch.is_parallel_lab then
          place_parallel_batch_block g sect ch.subject day p ch.duration ch.batches
            faculty_list room_list
        else
          place_single_block g sect ch.subject day p ch.duration faculty_list
            room_list home_rooms
      if res.1 then
        Except.ok (res.2, rr2,
          if is_theory_session ch.subject then consecutive_theory + ch.duration else 0)
      else Except.error res.2

/-- The Phase B per-day period loop. -/
def fillPeriods (cfg : Config) (subjects_by_code : String → Option Subject)
    (section_batches : String → List String) (home_rooms : String → Option String)
    (faculty_list : List Faculty) (room_list : List Room) (sect day : String)
    (day_block : Int × Int) :
    List Int → GState → RR → Int → Except GState (GState × RR)
  | [], g, rr, _ => Except.ok (g, rr)
  | p :: ps, g, rr, consec =>
    match stepPeriod cfg subjects_by_code section_batches home_rooms faculty_list
        room_list sect day day_block p g rr consec with
    | Except.error g2 => Except.error g2
    | Except.ok (g2, rr2, c2) =>
      fillPeriods cfg subjects_by_code section_batches home_rooms faculty_list
        room_list sect day day_block ps g2 rr2 c2

/-- The Phase B day loop for one section (the consecutive-theory counter
restarts at 0 each day). -/
def fillDays (cfg : Config) (subjects_by_code : String → Option Subject)
    (section_batches : String → List String) (home_rooms : String → Option String)
    (faculty_list : List Faculty) (room_list : List Room) (sect : String)
    (blocks : String → Int × Int) :
    List String → GState → RR → Except GState (GState × RR)
  | [], g, rr => Except.ok (g, rr)
  | day :: ds, g, rr =>
    match fillPeriods cfg subjects_by_code section_batches home_rooms faculty_list
        room_list sect day (blocks day)
        (intRange (blocks day).1 ((blocks day).2 + 1)) g rr 0 with
    | Except.error g2 => Except.error g2
    | Except.ok (g2, rr2) =>
      fillDays cfg subjects_by_code section_batches home_rooms faculty_list
        room_list sect blocks ds g2 rr2

/-- The Phase B section loop: per section, the day targets and blocks are
computed from the total required periods and the fixed periods placed in
Phase A, and a fresh round-robin state is created. -/
def phaseB (cfg : Config) (subjects : List Subject)
    (section_batches : String → List String) (home_rooms : String → Option String)
    (faculty_list : List Faculty) (room_list : List Room)
    (fixed_codes : List String) (fp : String → String → List Int) :
    List String → GState → Except GState GState
  | [], g => Except.ok g
  | sect :: rest, g =>
    let required_periods := (subjects.map Subject.hours_per_week).sum
    let day_targets := build_day_targets cfg required_periods
    let day_blocks := build_day_blocks cfg day_targets (fp sect)
    let rr0 := init_round_robin_state subjects fixed_codes
    match fillDays cfg (subjectsByCode subjects) section_batches home_rooms
        faculty_list room_list sect day_blocks cfg.days g rr0 with
    | Except.error g2 => Except.error g2
    | Except.ok (g2, _) =>
      phaseB cfg subjects section_batches home_rooms faculty_list room_list
        fixed_codes fp rest g2

/-- Embedding of `ConstraintSatisfactionScheduler.schedule_greedy`.  The
result is the success flag together with the final scheduler state (whose
`timetable` field is the grid the source returns); `none` renders the
`ValueError` raised by `_assign_home_classrooms`. -/
def schedule_greedy (cfg : Config) (sections : List String)
    (subjects : List Subject) (faculty_list : List Faculty)
    (room_list : List Room) (section_batches : String → List String) :
    Option (Bool × GState) :=
  match assign_home_classrooms sections room_list with
  | none => none
  | some home_rooms =>
    let items := fixedItems sections subjects
    let a0 : AState :=
      { grid := initState, fixed_periods := fun _ _ => [], fixed_scheduled := 0 }
    match phaseA faculty_list room_list home_rooms items a0 with
    | Except.error g => some (false, g)
    | Except.ok st =>
      if st.fixed_scheduled ≠ items.length then some (false, st.grid)
      else
        match phaseB cfg subjects section_batches home_rooms faculty_list
            room_list (fixed_subject_codes subjects) st.fixed_periods
            (sorted_by id sections) st.grid with
        | Except.error g2 => some (false, g2)
        | Except.ok g2 => some (true, g2)

/-- The greedy path parameterised by a random stream it never consults: the
source `schedule_greedy` makes no call into the `random` module (randomness
is used only by the genetic-algorithm scheduler), so the embedding discards
the stream. -/
def schedule_greedy_with_rng (rng : Nat → Nat) (cfg : Config)
    (sections : List String) (subjects : List Subject)
    (faculty_list : List Faculty) (room_list : List Room)
    (section_batches : String → List String) : Option (Bool × GState) :=
  schedule_greedy cfg sections subjects faculty_list room_list section_batches

/-- Embedding of `TimetableScheduler.check_lab_continuity` (the diagnostic
message of the source is abstracted away): every period of the block must be
within the day and unoccupied, and the block must not span the lunch break. -/
def check_lab_continuity (cfg : Config) (s : GState) (sect subject_code day : String)
    (start_period duration : Int) : Bool :=
  (intRange start_period (start_period + duration)).all (fun p =>
    p ≤ cfg.periods_per_day && !(smContains (s.timetable sect) (day, p))) &&
  !(start_period ≤ 4 && start_period + duration > 5)

/-- The reserved fixed slots of
`ConstraintSatisfactionScheduler._get_valid_slots_for_item`. -/
def reservedSlots : List Slot :=
  [("Wednesday", 6), ("Wednesday", 7), ("Thursday", 6), ("Thursday", 7)]

/-- The per-slot availability test of `_get_valid_slots_for_item`, in source
order: occupancy and reservation checks per period, then the lab start and
break-crossing rules, then lab continuity. -/
def slotAllAvailable (cfg : Config) (s : GState) (sect : String) (subject : Subject)
    (duration : Int) (is_batch_lab : Bool) (day : String) (period : Int) : Bool :=
  let base := (intRange period (period + duration)).all (fun p =>
    (match smLookup (s.timetable sect) (day, p) with
     | none => true
     | some existing =>
       if !(existing.all (fun e => truthyS e.batch)) then false
       else if !is_batch_lab then false
       else true) &&
    (if !(["YOGA", "CLUB", "MP", "PP1"].contains (upperStr subject.short_name)) then
       !(reservedSlots.contains (day, p))
     else true))
  let base2 :=
    if duration > 1 && subject.subject_type == "lab" then
      (if period == 2 || period == 4 then false
       else if period ≤ 4 && period + duration > 5 then false
       else base)
    else base
  if base2 && subject.subject_type == "lab" && duration > 1 then
    check_lab_continuity cfg s sect subject.code day period duration
  else base2

/-- Embedding of `ConstraintSatisfactionScheduler._get_valid_slots_for_item`. -/
def get_valid_slots_for_item (cfg : Config) (s : GState) (sect : String)
    (subject : Subject) (duration : Int) (is_batch_lab : Bool) : List Slot :=
  ((cfg.days.map (fun day =>
    ((intRange 1 (cfg.periods_per_day - duration + 2)).filter
      (slotAllAvailable cfg s sect subject duration is_batch_lab day)).map
      (fun period => ((day, period) : Slot)))).flatten)

/-! Embedding of `ConstraintValidator.validate`.  The validator receives the
timetable as data (a dict of dicts, modelled as nested association lists in
insertion order), the subject catalog and the section list, and recomputes
every violation from scratch.  Violations are modelled by their `type` tag;
the description strings and the `details` payload of the source are
abstracted away, neither being consulted by any control flow. -/

/-- Duplicate-free insertion used for the Python set accumulators. -/
def dedupStr (l : List String) : List String :=
  l.foldl (fun acc c => if acc.contains c then acc else acc ++ [c]) []

/-- Duplicate-free insertion for integer sets. -/
def dedupInts (l : List Int) : List Int :=
  l.foldl (fun acc c => if acc.contains c then acc else acc ++ [c]) []

/-- Ascending insertion used by `sortInts`. -/
def insortI (x : Int) : List Int → List Int
  | [] => [x]
  | y :: ys => if y ≤ x then y :: insortI x ys else x :: y :: ys

/-- Python `sorted` on a list of integers. -/
def sortInts (l : List Int) : List Int := l.foldl (fun acc x => insortI x acc) []

/-- Equality of two string sets represented as duplicate-free lists. -/
def strSetEq (a b : List String) : Bool :=
  a.all (fun x => b.contains x) && b.all (fun x => a.contains x)

/-- The accumulators of the validator main scan: the hard-violation tags
collected so far and the four occupancy/set indexes it rebuilds. -/
structure ScanAcc where
  hard : List String
  teacher : String → Slot → List TimeSlotEntry
  room : String → Slot → List TimeSlotEntry
  sectionSched : String → Slot → List TimeSlotEntry
  subjectSlots : String → String → List Slot

/-- The empty scan accumulator. -/
def emptyScanAcc : ScanAcc :=
  { hard := [], teacher := fun _ _ => [], room := fun _ _ => [],
    sectionSched := fun _ _ => [], subjectSlots := fun _ _ => [] }

/-- Set insertion into the `subject_slots` accumulator. -/
def addSubjectSlot (m : String → String → List Slot) (sect code : String) (k : Slot) :
    String → String → List Slot :=
  fun s c =>
    if s = sect ∧ c = code then
      (if (m s c).contains k then m s c else m s c ++ [k])
    else m s c

/-- The per-entry body of the validator main scan: the three clash checks
against the accumulated indexes, each followed by the corresponding append. -/
def scanEntry (sect : String) (slot : Slot) (acc : ScanAcc) (entry : TimeSlotEntry) :
    ScanAcc :=
  let existing := acc.sectionSched sect slot
  let secViol : List String :=
    if !existing.isEmpty then
      (if !(existing.any (fun e => truthyS e.batch)) && !(truthyS entry.batch) then
         ["section_clash"]
       else if truthyS entry.batch &&
           existing.any (fun e => e.batch == entry.batch) then
         ["section_clash"]
       else if !(truthyS entry.batch) && existing.any (fun e => truthyS e.batch) then
         ["section_clash"]
       else [])
    else []
  let t_existing := acc.teacher entry.faculty_id slot
  let teacherViol : List String :=
    if !t_existing.isEmpty then
      (let allowed := entry.batch.isSome &&
        t_existing.all (fun e =>
          e.batch.isSome && e.sect == sect && e.subject_code == entry.subject_code)
       if !allowed then ["teacher_clash"] else [])
    else []
  let roomViol : List String :=
    if !(acc.room entry.room_number slot).isEmpty then ["room_clash"] else []
  { hard := acc.hard ++ secViol ++ teacherViol ++ roomViol
    teacher := fun f k =>
      if f = entry.faculty_id ∧ k = slot then acc.teacher f k ++ [entry]
      else acc.teacher f k
    room := fun r k =>
      if r = entry.room_number ∧ k = slot then acc.room r k ++ [entry]
      else acc.room r k
    sectionSched := fun s k =>
      if s = sect ∧ k = slot then acc.sectionSched s k ++ [entry]
      else acc.sectionSched s k
    subjectSlots := acc.subjectSlots }

/-- The per-slot body of the main scan: scan the entries, then record each
distinct subject code as occupying this slot. -/
def scanSlot (sect : String) (acc : ScanAcc) (kv : Slot × List TimeSlotEntry) :
    ScanAcc :=
  let acc2 := kv.2.foldl (scanEntry sect kv.1) acc
  let slots2 := (dedupStr (kv.2.map TimeSlotEntry.subject_code)).foldl
    (fun m code => addSubjectSlot m sect code kv.1) acc2.subjectSlots
  { acc2 with subjectSlots := slots2 }

/-- The whole main scan over the timetable in insertion order. -/
def scanAll (tt : List (String × SlotMap)) : ScanAcc :=
  tt.foldl (fun acc secSlots =>
    secSlots.2.foldl (scanSlot secSlots.1) acc) emptyScanAcc

/-- The credit check: one `credit_mismatch` per (section, catalog subject)
whose number of distinct occupied slots differs from `hours_per_week`. -/
def creditViolations (subjectSlots : String → String → List Slot)
    (subjects_config : List (String × Subject)) (sections : List String) :
    List String :=
  (sections.map (fun sect =>
    (subjects_config.map (fun cs =>
      if ((subjectSlots sect cs.1).length : Int) ≠ cs.2.hours_per_week then
        ["credit_mismatch"]
      else [])).flatten)).flatten

/-- Association append used to group the occupied periods of a section by day. -/
def byDayAdd : List (String × List Int) → String → Int → List (String × List Int)
  | [], d, p => [(d, [p])]
  | (d0, ps) :: rest, d, p =>
    if d0 = d then (d0, ps ++ [p]) :: rest else (d0, ps) :: byDayAdd rest d p

/-- Dictionary lookup for the validator timetable argument. -/
def ttLookup (tt : List (String × SlotMap)) (sect : String) : Option SlotMap :=
  (tt.map (fun p => p)).lookup sect

/-- The gap check for one section: for each day holding at least two
occupied periods, one `gap` per missing period between the earliest and the
latest. -/
def gapViolationsSection (slots : SlotMap) : List String :=
  let by_day := (slots.map Prod.fst).foldl
    (fun m dp => byDayAdd m dp.1 dp.2) []
  (by_day.map (fun dps =>
    if dps.2.length ≤ 1 then []
    else
      let lo := listMinI 0 dps.2
      let hi := listMaxI 0 dps.2
      ((intRange lo (hi + 1)).map (fun p =>
        if !(smContains slots (dps.1, p)) then ["gap"] else [])).flatten)).flatten

/-- The gap check over the requested sections. -/
def gapViolations (tt : List (String × SlotMap)) (sections : List String) :
    List String :=
  (sections.map (fun sect =>
    gapViolationsSection ((ttLookup tt sect).getD []))).flatten

/-- Nested association append used to group the lab entries of a section by
subject code and day. -/
def labsAdd (m : List (String × List (String × List (Int × TimeSlotEntry))))
    (code day : String) (item : Int × TimeSlotEntry) :
    List (String × List (String × List (Int × TimeSlotEntry))) :=
  match m with
  | [] => [(code, [(day, [item])])]
  | (c0, byday) :: rest =>
    if c0 = code then (c0, byDayAddItems byday day item) :: rest
    else (c0, byday) :: labsAdd rest code day item
where
  byDayAddItems : List (String × List (Int × TimeSlotEntry)) → String →
      (Int × TimeSlotEntry) → List (String × List (Int × TimeSlotEntry))
    | [], d, it => [(d, [it])]
    | (d0, its) :: rest, d, it =>
      if d0 = d then (d0, its ++ [it]) :: rest else (d0, its) :: byDayAddItems rest d it

/-- The lab-block rules for one (section, subject, day) group of lab entries:
exactly two distinct consecutive periods, a start in {1, 3, 5}, and matching
batch sets across the two periods. -/
def labDayViolations (items : List (Int × TimeSlotEntry)) : List String :=
  let distinct := sortInts (dedupInts (items.map Prod.fst))
  match distinct with
  | [p1, p2] =>
    if p2 ≠ p1 + 1 then ["lab_block"]
    else
      let startViol : List String :=
        if !(p1 == 1 || p1 == 3 || p1 == 5) then ["lab_block"] else []
      let batches_p1 := dedupStr (items.filterMap (fun pe =>
        if pe.1 == p1 && pe.2.batch.isSome then pe.2.batch else none))
      let batches_p2 := dedupStr (items.filterMap (fun pe =>
        if pe.1 == p2 && pe.2.batch.isSome then pe.2.batch else none))
      let batchViol : List String :=
        if !batches_p1.isEmpty || !batches_p2.isEmpty then
          (if batches_p1.isEmpty || batches_p2.isEmpty ||
              !(strSetEq batches_p1 batches_p2) then ["lab_block"] else [])
        else []
      startViol ++ batchViol
  | _ => ["lab_block"]

/-- The lab-block check over the requested sections. -/
def labViolations (tt : List (String × SlotMap)) (sections : List String) :
    List String :=
  (sections.map (fun sect =>
    let slots := (ttLookup tt sect).getD []
    let labs := slots.foldl (fun m kv =>
      kv.2.foldl (fun m2 e =>
        if e.subject_type == "lab" then labsAdd m2 e.subject_code kv.1.1 (kv.1.2, e)
        else m2) m) []
    (labs.map (fun cb =>
      (cb.2.map (fun db => labDayViolations db.2)).flatten)).flatten)).flatten

/-- The consecutive-theory soft scan for one section and one day: each
period extending a run beyond the cap appends a violation of penalty
`(run − cap) · 5`. -/
def consecGo (cfg : Config) (slots : SlotMap) (day : String) :
    List Int → Int → List (String × Int)
  | [], _ => []
  | p :: ps, consecutive =>
    match smLookup slots (day, p) with
    | some es =>
      if es.any (fun e => e.subject_type == "theory") then
        let c2 := consecutive + 1
        (if c2 > cfg.max_consecutive_theory then
           [("consecutive_theory", (c2 - cfg.max_consecutive_theory) * 5)]
         else []) ++ consecGo cfg slots day ps c2
      else consecGo cfg slots day ps 0
    | none => consecGo cfg slots day ps 0

/-- The soft-constraint pass over every section of the timetable argument:
consecutive-theory runs per configured day, then the early-period count. -/
def softViolations (cfg : Config) (tt : List (String × SlotMap)) :
    List (String × Int) :=
  (tt.map (fun secSlots =>
    ((cfg.days.map (fun day =>
      consecGo cfg secSlots.2 day (intRange 1 (cfg.periods_per_day + 1)) 0)).flatten) ++
    (let first_p := (cfg.days.filter (fun d => smContains secSlots.2 (d, 1))).length
     if (first_p : Int) > cfg.limit_first_period then
       [("early_slots", ((first_p : Int) - cfg.limit_first_period) * 2)]
     else []))).flatten

/-- Embedding of the `ValidationResult` dataclass (the free-form `details`
field carries no validated content and is omitted). -/
structure ValidationResult where
  is_valid : Bool
  hard_violations : List String
  soft_violations : List (String × Int)
  score : Int
deriving DecidableEq

/-- Embedding of `ConstraintValidator.validate`: the main scan, the credit,
gap and lab-block hard checks, the soft checks, and the final score.  Hard
violations are concatenated in source order. -/
def validate (cfg : Config) (tt : List (String × SlotMap))
    (subjects_config : List (String × Subject)) (sections : List String) :
    ValidationResult :=
  let acc := scanAll tt
  let hard := acc.hard ++ creditViolations acc.subjectSlots subjects_config sections ++
    gapViolations tt sections ++ labViolations tt sections
  let soft := softViolations cfg tt
  { is_valid := hard.isEmpty
    hard_violations := hard
    soft_violations := soft
    score := 1000 - 100 * (hard.length : Int) - (soft.map Prod.snd).sum }

/-! Concrete catalog values used by the counterexamples and witnesses. -/

/-- A one-hour theory subject taught by nobody in the `C1` failing input. -/
def subjS10 : Subject :=
  { code := "S10", name := "Algorithms", short_name := "ALG",
    subject_type := "theory", hours_per_week := 1, lab_duration := 2,
    batches_required := false }

/-- A plain classroom. -/
def roomR1 : Room := { number := "R1", room_type := "classroom" }

/-- A batch-parallel two-hour lab subject. -/
def subjL1 : Subject :=
  { code := "L1", name := "computer programming lab", short_name := "CPL",
    subject_type := "lab", hours_per_week := 2, lab_duration := 2,
    batches_required := true }

/-- A faculty member qualified for the lab subjects of the examples. -/
def facF1 : Faculty :=
  { id := "F1", short_name := "AB", subjects := ["L1", "L2", "S10"],
    unavailable_slots := [] }

/-- Three computer labs, enough for three parallel batches. -/
def labRooms : List Room :=
  [{ number := "CL1", room_type := "computer_lab" },
   { number := "CL2", room_type := "computer_lab" },
   { number := "CL3", room_type := "computer_lab" }]

end Timetable

namespace Timetable

end Timetable

namespace Timetable

def entL1A1 : TimeSlotEntry :=
  { day := "Monday", period := 1, sect := "A", subject_code := "L1",
    subject_name := "computer programming lab", subject_short := "CPL",
    subject_type := "lab", faculty_id := "F1", faculty_name := "AB",
    room_number := "CL1", batch := some "A1", is_lab_continuation := false }

def stateC3 : GState :=
  { timetable := fun sec => if sec = "A" then [(("Monday", 1), [entL1A1])] else []
    teacher_schedule := fun f k =>
      if f = "F1" ∧ k = ("Monday", 1) then [entL1A1] else []
    room_schedule := fun r k =>
      if r = "CL1" ∧ k = ("Monday", 1) then [entL1A1] else []
    subject_hours_allocated := fun _ _ => 0 }

def candC3 : TimeSlotEntry :=
  { day := "Monday", period := 1, sect := "A", subject_code := "L2",
    subject_name := "digital electronics lab", subject_short := "DEL",
    subject_type := "lab", faculty_id := "F1", faculty_name := "AB",
    room_number := "CL2", batch := some "A2", is_lab_continuation := false }

def entTheory (p : Int) (code fid room : String) : TimeSlotEntry :=
  { day := "Monday", period := p, sect := "A", subject_code := code,
    subject_name := code, subject_short := code, subject_type := "theory",
    faculty_id := fid, faculty_name := fid, room_number := room, batch := none,
    is_lab_continuation := false }

def subjTheory (code : String) (h : Int) : Subject :=
  { code := code, name := code, short_name := code, subject_type := "theory",
    hours_per_week := h, lab_duration := 2, batches_required := false }

def ttGap : List (String × SlotMap) :=
  [("A", [(("Monday", 2), [entTheory 2 "S1" "F1" "R1"]),
          (("Monday", 4), [entTheory 4 "S2" "F2" "R1"])])]

def ttConsec : List (String × SlotMap) :=
  [("A", [(("Monday", 2), [entTheory 2 "S1" "F1" "R1"]),
          (("Monday", 3), [entTheory 3 "S2" "F1" "R1"]),
          (("Monday", 4), [entTheory 4 "S3" "F1" "R1"]),
          (("Monday", 5), [entTheory 5 "S4" "F1" "R1"]),
          (("Monday", 6), [entTheory 6 "S5" "F1" "R1"])])]

def stateC6 : GState :=
  { timetable := fun _ => []
    teacher_schedule := fun f k =>
      if f = "F1" ∧ k = ("Monday", 1) then [entL1A1] else []
    room_schedule := fun _ _ => []
    subject_hours_allocated := fun _ _ => 0 }

/-- A timetable using the first period on five days, for the early-slot soft
penalty. -/
def ttEarly : List (String × SlotMap) :=
  [("A", [(("Monday", 1), [{ entTheory 1 "S1" "F1" "R1" with day := "Monday" }]),
          (("Tuesday", 1), [{ entTheory 1 "S1" "F1" "R1" with day := "Tuesday" }]),
          (("Wednesday", 1), [{ entTheory 1 "S1" "F1" "R1" with day := "Wednesday" }]),
          (("Thursday", 1), [{ entTheory 1 "S1" "F1" "R1" with day := "Thursday" }]),
          (("Friday", 1), [{ entTheory 1 "S1" "F1" "R1" with day := "Friday" }])])]

/-- A yoga subject whose short label sits in the fixed-slot table. -/
def subjYoga : Subject :=
  { code := "Y1", name := "Yoga", short_name := "YOGA", subject_type := "yoga",
    hours_per_week := 1, lab_duration := 2, batches_required := false }

/-- The round-robin state over the single lab subject, for the selector
witness. -/
def rrL : RR := init_round_robin_state [subjL1] []

/-- A concrete selector invocation that chooses the two-period parallel lab
at (Monday, 1). -/
def selC4 : Option (Choice × RR) :=
  select_subject_for_slot defaultConfig initState "A" "Monday" 1 (1, 7) rrL
    (subjectsByCode [subjL1]) (fun _ => ["A1", "A2", "A3"]) (fun _ => none)
    [facF1] labRooms 0

/-- A throwaway pair used only as the default of `Option.getD` below. -/
def dfltChoice : Choice × RR :=
  ({ subject := subjL1, duration := 2, is_parallel_lab := true, batches := [] }, rrL)

end Timetable

namespace Timetable

/-! Helper lemmas shared by the claim theorems. -/

/-- Membership in a Python integer range. -/
theorem mem_intRange {p a b : Int} : p ∈ intRange a b ↔ a ≤ p ∧ p < b := by
  unfold intRange
  rw [List.mem_map]
  constructor
  · rintro ⟨i, hi, heq⟩
    rw [List.mem_range] at hi
    omega
  · intro h
    refine ⟨(p - a).toNat, ?_, ?_⟩
    · rw [List.mem_range]
      omega
    · show a + ((p - a).toNat : Int) = p
      omega

/-- Filtering an entry out of a list not containing it is the identity. -/
theorem filter_ne_of_not_mem {e : TimeSlotEntry} {l : List TimeSlotEntry}
    (h : e ∉ l) : l.filter (fun x => !(x == e)) = l := by
  apply List.filter_eq_self.mpr
  intro a ha
  have : ¬(a = e) := fun hc => h (hc ▸ ha)
  simp [this]

/-- Filtering an entry out of a clean list with that entry appended removes
exactly the appended copy. -/
theorem filter_ne_append {e : TimeSlotEntry} {l : List TimeSlotEntry}
    (h : e ∉ l) : (l ++ [e]).filter (fun x => !(x == e)) = l := by
  rw [List.filter_append, filter_ne_of_not_mem h]
  simp

/-- Removing an entry from a slot map in which it does not occur (and whose
binding at the key, if any, is a nonempty list) is the identity. -/
theorem smRemoveEntry_eq_self {m : SlotMap} {k : Slot} {e : TimeSlotEntry}
    (h : ∀ es, smLookup m k = some es → e ∉ es ∧ es ≠ []) :
    smRemoveEntry m k e = m := by
  induction m with
  | nil => rfl
  | cons kv rest ih =>
    obtain ⟨k0, es⟩ := kv
    by_cases hk : k0 = k
    · subst hk
      have hes := h es (by simp [smLookup])
      have hfil : es.filter (fun x => !(x == e)) = es := filter_ne_of_not_mem hes.1
      have hne : es.isEmpty = false := by
        cases es with
        | nil => exact absurd rfl hes.2
        | cons a as => rfl
      show (if k0 = k0 then
          (let es2 := es.filter (fun x => !(x == e))
           if es2.isEmpty then rest else (k0, es2) :: rest)
        else (k0, es) :: smRemoveEntry rest k0 e) = (k0, es) :: rest
      rw [if_pos rfl]
      simp only [hfil, hne]
      simp
    · have hrest : ∀ es2, smLookup rest k = some es2 → e ∉ es2 ∧ es2 ≠ [] := by
        intro es2 h2
        exact h es2 (by simpa [smLookup, hk] using h2)
      show ((if k0 = k then
          (let es2 := es.filter (fun x => !(x == e))
           if es2.isEmpty then rest else (k0, es2) :: rest)
        else (k0, es) :: smRemoveEntry rest k e) : SlotMap) = (k0, es) :: rest
      rw [if_neg hk, ih hrest]

/-- Removing an entry immediately after appending it restores the slot map,
provided the entry did not already occur at the key and the binding at the
key, if present, was nonempty. -/
theorem smRemoveEntry_smAppend {m : SlotMap} {k : Slot} {e : TimeSlotEntry}
    (h : ∀ es, smLookup m k = some es → e ∉ es ∧ es ≠ []) :
    smRemoveEntry (smAppend m k e) k e = m := by
  induction m with
  | nil =>
    show smRemoveEntry [(k, [e])] k e = []
    show (if k = k then
        (let es2 := [e].filter (fun x => !(x == e))
         if es2.isEmpty then ([] : SlotMap) else (k, es2) :: [])
      else (k, [e]) :: smRemoveEntry [] k e) = []
    rw [if_pos rfl]
    simp
  | cons kv rest ih =>
    obtain ⟨k0, es⟩ := kv
    by_cases hk : k0 = k
    · subst hk
      have hes := h es (by simp [smLookup])
      have hfil : (es ++ [e]).filter (fun x => !(x == e)) = es := filter_ne_append hes.1
      have happ : smAppend ((k0, es) :: rest) k0 e = (k0, es ++ [e]) :: rest := by
        show (if k0 = k0 then (k0, es ++ [e]) :: rest
          else (k0, es) :: smAppend rest k0 e) = (k0, es ++ [e]) :: rest
        rw [if_pos rfl]
      rw [happ]
      show (if k0 = k0 then
          (let es2 := (es ++ [e]).filter (fun x => !(x == e))
           if es2.isEmpty then rest else (k0, es2) :: rest)
        else (k0, es ++ [e]) :: smRemoveEntry rest k0 e) = (k0, es) :: rest
      rw [if_pos rfl]
      simp only [hfil]
      have hne : es.isEmpty = false := by
        cases es with
        | nil => exact absurd rfl hes.2
        | cons a as => rfl
      simp only [hne]
      simp
    · have hrest : ∀ es2, smLookup rest k = some es2 → e ∉ es2 ∧ es2 ≠ [] := by
        intro es2 h2
        exact h es2 (by simpa [smLookup, hk] using h2)
      have happ : smAppend ((k0, es) :: rest) k e = (k0, es) :: smAppend rest k e := by
        show (if k0 = k then (k0, es ++ [e]) :: rest
          else (k0, es) :: smAppend rest k e) = (k0, es) :: smAppend rest k e
        rw [if_neg hk]
      rw [happ]
      show ((if k0 = k then
          (let es2 := es.filter (fun x => !(x == e))
           if es2.isEmpty then smAppend rest k e else (k0, es2) :: smAppend rest k e)
        else (k0, es) :: smRemoveEntry (smAppend rest k e) k e) : SlotMap) =
        (k0, es) :: rest
      rw [if_neg hk, ih hrest]

/-! Claim theorems. -/

/-- C1: the claim states that when remaining subject hours are still unmet
after every day window is exhausted, `schedule_greedy` must report
infeasibility.  The code does not: on the input below (one section, one
one-hour theory subject, an empty faculty pool so the subject can never be
placed), the selector finds no candidate at any period, every window is
exhausted, and `schedule_greedy` nevertheless returns success with zero hours
allocated against a requirement of one.  This contradicts the engine
docstring (exact hours-per-week matching is called non-negotiable) and the
specification, so it is recorded as a defect of the code. -/
theorem C1_success_despite_unmet_hours :
    (schedule_greedy defaultConfig ["A"] [subjS10] [] [roomR1]
      (fun _ => [])).map Prod.fst = some true ∧
    (schedule_greedy defaultConfig ["A"] [subjS10] [] [roomR1]
      (fun _ => [])).map
        (fun r => r.2.subject_hours_allocated "A" "S10") = some 0 ∧
    subjS10.hours_per_week = 1 :=
  ⟨by decide, by decide, by decide⟩

/-- C8: the greedy scheduling path is deterministic.  In the embedding the
greedy path is a pure function of the catalog inputs — faithfully to the
source, which performs no call into the `random` module on this path and
iterates only over stably sorted lists and insertion-ordered dictionaries —
so its result is independent of any random stream and identical across
invocations on identical inputs. -/
theorem C8_greedy_deterministic (rng1 rng2 : Nat → Nat) (cfg : Config)
    (sections : List String) (subjects : List Subject)
    (faculty_list : List Faculty) (room_list : List Room)
    (section_batches : String → List String) :
    schedule_greedy_with_rng rng1 cfg sections subjects faculty_list room_list
        section_batches =
      schedule_greedy_with_rng rng2 cfg sections subjects faculty_list room_list
        section_batches ∧
    schedule_greedy cfg sections subjects faculty_list room_list section_batches =
      schedule_greedy cfg sections subjects faculty_list room_list section_batches :=
  ⟨rfl, rfl⟩

/-- C2 counterexample: a parallel-batch lab block with 3 batches over 2
periods raises the hours counter by 6 (one per placement), not by 2 (one per
distinct occupied slot): the grid occupies exactly 2 slots for the section
while the counter reads 6. -/
theorem C2_counterexample :
    (place_parallel_batch_block initState "A" subjL1 "Monday" 1 2
      ["A1", "A2", "A3"] [facF1] labRooms).1 = true ∧
    (place_parallel_batch_block initState "A" subjL1 "Monday" 1 2
      ["A1", "A2", "A3"] [facF1] labRooms).2.subject_hours_allocated "A" "L1" = 6 ∧
    ((place_parallel_batch_block initState "A" subjL1 "Monday" 1 2
      ["A1", "A2", "A3"] [facF1] labRooms).2.timetable "A").length = 2 :=
  ⟨by decide, by decide, by decide⟩

/-- C2 as amended: the hours counter `H[section][code]` counts placements,
not distinct occupied slots: every successful `add_entry` increments the
counter of its own (section, subject code) by exactly one and leaves every
other cell unchanged, so a parallel-batch lab block with k batches over 2
periods raises it by 2·k. -/
theorem C2_hours_counter_counts_placements (e : TimeSlotEntry) (s s2 : GState)
    (hadd : add_entry e s = some s2) :
    s2.subject_hours_allocated e.sect e.subject_code =
      s.subject_hours_allocated e.sect e.subject_code + 1 ∧
    ∀ sec code, ¬(sec = e.sect ∧ code = e.subject_code) →
      s2.subject_hours_allocated sec code = s.subject_hours_allocated sec code := by
  unfold add_entry at hadd
  by_cases hc : (check_hard_constraints e s).isEmpty
  · simp only [hc, if_true] at hadd
    cases hadd
    constructor
    · simp
    · intro sec code hne
      simp [hne]
  · simp [hc] at hadd

/-- C2 witness: the amended theorem applied to a concrete successful
insertion, whose counter goes from 0 to 1. -/
theorem C2_witness :
    (add_entry entL1A1 stateC6).map
      (fun g => g.subject_hours_allocated "A" "L1") = some 1 := by
  have h : add_entry entL1A1 stateC6 =
      some ((add_entry entL1A1 stateC6).getD initState) := rfl
  have h2 := (C2_hours_counter_counts_placements entL1A1 stateC6
    ((add_entry entL1A1 stateC6).getD initState) h).1
  rw [h]
  show some (((add_entry entL1A1 stateC6).getD initState).subject_hours_allocated
    "A" "L1") = some 1
  have h3 : stateC6.subject_hours_allocated entL1A1.sect entL1A1.subject_code + 1 = 1 := by
    decide
  exact congrArg some (h2.trans h3)

/-- C3 counterexample: the hard-constraint check accepts a candidate whose
faculty already has a same-slot entry with a different subject code (both
tagged with batches of the same section), contradicting the claim that
acceptance requires a shared subject code; the insertion is even accepted
into the grid. -/
theorem C3_counterexample :
    stateC3.teacher_schedule "F1" ("Monday", 1) = [entL1A1] ∧
    candC3.faculty_id = "F1" ∧ candC3.day = "Monday" ∧ candC3.period = 1 ∧
    entL1A1.subject_code ≠ candC3.subject_code ∧
    check_hard_constraints candC3 stateC3 = [] ∧
    (add_entry candC3 stateC3).isSome = true :=
  ⟨by decide, by decide, by decide, by decide, by decide, by decide, by decide⟩

/-- C9 counterexample: with 48 required periods the Monday target is 8, yet
the planner clips the window to (1, 7) — not [1, target] as the claim
states for every target ≥ 6. -/
theorem C9_counterexample :
    build_day_targets defaultConfig 48 "Monday" = 8 ∧
    build_day_blocks defaultConfig (build_day_targets defaultConfig 48)
      (fun _ => []) "Monday" = (1, 7) :=
  ⟨by decide, by decide⟩

/-- C5 counterexample: on a timetable whose only defect is one internal gap,
the validator reports the gap as a hard violation costing 100 (score 900,
`is_valid = false`), not as a soft penalty of 50 as the claim states. -/
theorem C5_counterexample :
    validate defaultConfig ttGap
      [("S1", subjTheory "S1" 1), ("S2", subjTheory "S2" 1)] ["A"] =
    { is_valid := false, hard_violations := ["gap"], soft_violations := [],
      score := 900 } := by decide

/-- C10: `remove_entry` on an entry that is absent from the grid (absent from
the three occupancy lists at its slot, the section slot map holding no stale
empty binding there) leaves all three occupancy indexes unchanged yet still
decrements the hours counter of its (section, subject code) by one — and
touches no other counter cell — so the counter can drift below zero and away
from the number of occupied slots. -/
theorem C10_remove_absent_decrements (e : TimeSlotEntry) (s : GState)
    (hsec : ∀ es, smLookup (s.timetable e.sect) (e.day, e.period) = some es →
      e ∉ es ∧ es ≠ [])
    (hfac : e ∉ s.teacher_schedule e.faculty_id (e.day, e.period))
    (hroom : e ∉ s.room_schedule e.room_number (e.day, e.period)) :
    (remove_entry e s).timetable = s.timetable ∧
    (remove_entry e s).teacher_schedule = s.teacher_schedule ∧
    (remove_entry e s).room_schedule = s.room_schedule ∧
    (remove_entry e s).subject_hours_allocated e.sect e.subject_code =
      s.subject_hours_allocated e.sect e.subject_code - 1 ∧
    ∀ sec code, ¬(sec = e.sect ∧ code = e.subject_code) →
      (remove_entry e s).subject_hours_allocated sec code =
        s.subject_hours_allocated sec code := by
  refine ⟨?_, ?_, ?_, ?_, ?_⟩
  · funext sec
    show (if sec = e.sect then
        smRemoveEntry (s.timetable sec) (e.day, e.period) e
      else s.timetable sec) = s.timetable sec
    by_cases hs : sec = e.sect
    · subst hs
      rw [if_pos rfl]
      exact smRemoveEntry_eq_self hsec
    · rw [if_neg hs]
  · funext f k
    show (if f = e.faculty_id ∧ k = (e.day, e.period) then
        (s.teacher_schedule f k).filter (fun x => !(x == e))
      else s.teacher_schedule f k) = s.teacher_schedule f k
    by_cases hfk : f = e.faculty_id ∧ k = (e.day, e.period)
    · obtain ⟨rfl, rfl⟩ := hfk
      rw [if_pos ⟨rfl, rfl⟩]
      exact filter_ne_of_not_mem hfac
    · rw [if_neg hfk]
  · funext r k
    show (if r = e.room_number ∧ k = (e.day, e.period) then
        (s.room_schedule r k).filter (fun x => !(x == e))
      else s.room_schedule r k) = s.room_schedule r k
    by_cases hrk : r = e.room_number ∧ k = (e.day, e.period)
    · obtain ⟨rfl, rfl⟩ := hrk
      rw [if_pos ⟨rfl, rfl⟩]
      exact filter_ne_of_not_mem hroom
    · rw [if_neg hrk]
  · show (if e.sect = e.sect ∧ e.subject_code = e.subject_code then
        s.subject_hours_allocated e.sect e.subject_code - 1
      else s.subject_hours_allocated e.sect e.subject_code) = _
    rw [if_pos ⟨rfl, rfl⟩]
  · intro sec code hne
    show (if sec = e.sect ∧ code = e.subject_code then
        s.subject_hours_allocated sec code - 1
      else s.subject_hours_allocated sec code) = s.subject_hours_allocated sec code
    rw [if_neg hne]

/-- C10 witness: removing a never-added entry from the freshly initialised
state leaves the indexes empty but drives its hours counter to −1. -/
theorem C10_witness :
    (remove_entry (entTheory 2 "S1" "F1" "R1") initState).subject_hours_allocated
      "A" "S1" = -1 ∧
    (remove_entry (entTheory 2 "S1" "F1" "R1") initState).timetable =
      initState.timetable := by
  have h := C10_remove_absent_decrements (entTheory 2 "S1" "F1" "R1") initState
    (by intro es hes; simp [initState, smLookup] at hes)
    (by simp [initState])
    (by simp [initState])
  refine ⟨?_, h.1⟩
  have h4 := h.2.2.2.1
  have h0 : initState.subject_hours_allocated (entTheory 2 "S1" "F1" "R1").sect
      (entTheory 2 "S1" "F1" "R1").subject_code - 1 = -1 := by decide
  exact h4.trans h0

/-- C6 counterexample: from a state whose faculty index already holds a copy
of the entry (while the section grid does not), `add_entry` succeeds, and the
subsequent `remove_entry` deletes both copies, so the original state is not
restored. -/
theorem C6_counterexample :
    (add_entry entL1A1 stateC6).map
      (fun g => (remove_entry entL1A1 g).teacher_schedule "F1" ("Monday", 1)) =
      some [] ∧
    stateC6.teacher_schedule "F1" ("Monday", 1) = [entL1A1] :=
  ⟨by decide, by decide⟩

/-- C9 as amended: the day targets of the block planner partition the total
required periods R over the six days (base ⌊R/6⌋, the first R mod 6 days one
extra, summing to R), and the fixed-slot-free window is [1, target] for
6 ≤ target ≤ 7 but clipped to [1, periods_per_day] beyond — the claim omitted
the clipping — with the remaining rows as claimed: [2, 6] for target 5,
[2, 5] for target 4, and [2, 2 + target − 1] for target ≤ 3. -/
theorem C9_targets_sum_and_windows (R : Int) (hR : 0 ≤ R) :
    ((build_day_targets_list defaultConfig R).map Prod.snd).sum = R ∧
    (∀ target : Int, blockForDay defaultConfig target [] =
      (if target ≥ 6 then (1, min target 7)
       else if target = 5 then (2, 6)
       else if target = 4 then (2, 5)
       else (2, 2 + target - 1))) := by
  constructor
  · show ((build_day_targets_list defaultConfig R).map Prod.snd).sum = R
    simp only [build_day_targets_list, defaultConfig, List.enum, List.enumFrom,
      List.map, List.sum_cons, List.sum_nil, List.length_cons, List.length_nil]
    norm_num
    have h1 : 6 * (R.ediv 6) + R.emod 6 = R := Int.ediv_add_emod R 6
    have h2 : 0 ≤ R.emod 6 := Int.emod_nonneg R (by norm_num)
    have h3 : R.emod 6 < 6 := Int.emod_lt_of_pos R (by norm_num)
    split_ifs <;> omega
  · intro t
    unfold blockForDay
    simp only [List.isEmpty_nil, Bool.not_true, Bool.false_eq_true, if_false,
      defaultConfig]
    split_ifs <;>
      simp only [Prod.mk.injEq, Int.min_def, Int.max_def, true_and, and_true] <;>
      (try trivial) <;> (try split_ifs) <;> omega

/-- C9 witness: the amended theorem at R = 13 (over the six default days the
targets sum to 13, and a fixed-free day of target 3 gets window [2, 4]). -/
theorem C9_witness :
    ((build_day_targets_list defaultConfig 13).map Prod.snd).sum = 13 ∧
    blockForDay defaultConfig 3 [] = (2, 4) := by
  have h := C9_targets_sum_and_windows 13 (by norm_num)
  refine ⟨h.1, ?_⟩
  have h2 := h.2 3
  norm_num at h2
  exact h2

/-- C5 as amended: the validator score is 1000 minus 100 per hard violation
minus the summed soft penalties, and `is_valid` holds exactly when the hard
list is empty — but an internal gap is a hard violation (100 points, voiding
validity), not a soft penalty of 50; a consecutive-theory run contributes
5·(run − cap) at each offending period (so 5, then 10, …, cumulatively), and
early-period excess contributes 2 per excess as claimed. -/
theorem C5_score_and_validity :
    (∀ (cfg : Config) (tt : List (String × SlotMap))
        (subjects_config : List (String × Subject)) (sections : List String),
      (validate cfg tt subjects_config sections).score =
        1000 -
          100 * ((validate cfg tt subjects_config sections).hard_violations.length : Int) -
          (((validate cfg tt subjects_config sections).soft_violations.map
            Prod.snd).sum) ∧
      ((validate cfg tt subjects_config sections).is_valid = true ↔
        (validate cfg tt subjects_config sections).hard_violations = [])) ∧
    validate defaultConfig ttConsec [] [] =
      { is_valid := true, hard_violations := [],
        soft_violations := [("consecutive_theory", 5), ("consecutive_theory", 10)],
        score := 985 } ∧
    validate defaultConfig ttEarly [] [] =
      { is_valid := true, hard_violations := [],
        soft_violations := [("early_slots", 4)], score := 996 } := by
  refine ⟨?_, by decide, by decide⟩
  intro cfg tt subjects_config sections
  refine ⟨rfl, ?_⟩
  show (validate cfg tt subjects_config sections).hard_violations.isEmpty = true ↔ _
  exact List.isEmpty_iff

/-- The section-clash check never reports a teacher conflict. -/
theorem teacherBusy_not_mem_sectionClash (p : TimeSlotEntry) (s : GState) :
    HV.teacherBusy ∉ sectionClashViolations p s := by
  have h : sectionClashViolations p s = [] ∨
      sectionClashViolations p s = [HV.sectionBusy] ∨
      sectionClashViolations p s = [HV.batchBusy] ∨
      sectionClashViolations p s = [HV.sectionLab] := by
    unfold sectionClashViolations
    rcases smLookup (s.timetable p.sect) (p.day, p.period) with _ | es
    · exact Or.inl rfl
    · dsimp only
      by_cases h1 : es.isEmpty = true
      · rw [if_pos h1]; exact Or.inl rfl
      · rw [if_neg h1]
        by_cases h2 : (!(es.any fun e => truthyS e.batch) && !truthyS p.batch) = true
        · rw [if_pos h2]; exact Or.inr (Or.inl rfl)
        · rw [if_neg h2]
          by_cases h3 : truthyS p.batch = true
          · rw [if_pos h3]
            by_cases h4 : (es.any fun e => e.batch == p.batch) = true
            · rw [if_pos h4]; exact Or.inr (Or.inr (Or.inl rfl))
            · rw [if_neg h4]; exact Or.inl rfl
          · rw [if_neg h3]
            by_cases h5 : (!truthyS p.batch && es.any fun e => truthyS e.batch) = true
            · rw [if_pos h5]; exact Or.inr (Or.inr (Or.inr rfl))
            · rw [if_neg h5]; exact Or.inl rfl
  rcases h with h | h | h | h <;> rw [h] <;> simp

/-- The theory-twice check never reports a teacher conflict. -/
theorem teacherBusy_not_mem_theoryTwice (p : TimeSlotEntry) (s : GState) :
    HV.teacherBusy ∉ theoryTwiceViolations p s := by
  unfold theoryTwiceViolations
  split_ifs <;> simp

/-- The room-clash check never reports a teacher conflict. -/
theorem teacherBusy_not_mem_roomClash (p : TimeSlotEntry) (s : GState) :
    HV.teacherBusy ∉ roomClashViolations p s := by
  unfold roomClashViolations
  split_ifs <;> simp

/-- A Phase A prefix that succeeds followed by one failing fixed placement
makes `phaseA` abort with the grid as of the failure. -/
theorem phaseA_error_of_failing_item (fl : List Faculty) (rl : List Room)
    (hr : String → Option String) (pre : List FixedIt) :
    ∀ (it : FixedIt) (rest : List FixedIt) (a0 a : AState),
      phaseA fl rl hr pre a0 = Except.ok a →
      tryFixed fl rl hr it a = none →
      phaseA fl rl hr (pre ++ it :: rest) a0 = Except.error a.grid := by
  induction pre with
  | nil =>
    intro it rest a0 a hpre hfail
    have ha : a0 = a := by
      unfold phaseA at hpre
      injection hpre
    subst ha
    rw [List.nil_append]
    unfold phaseA
    rw [hfail]
  | cons x pre ih =>
    intro it rest a0 a hpre hfail
    rw [List.cons_append]
    unfold phaseA at hpre ⊢
    cases htf : tryFixed fl rl hr x a0 with
    | none =>
      rw [htf] at hpre
      exact absurd hpre (by simp)
    | some a1 =>
      rw [htf] at hpre
      exact ih it rest a1 a hpre hfail

/-- C7: a fixed-slot failure in Phase A — no qualified faculty, no room, or a
rejected insertion, all of which make `tryFixed` return nothing — terminates
`schedule_greedy` at once with failure and the partial grid built so far; no
later fixed item and no Phase B placement is attempted. -/
theorem C7_fixed_slot_failure_terminal (cfg : Config) (sections : List String)
    (subjects : List Subject) (faculty_list : List Faculty) (room_list : List Room)
    (section_batches : String → List String) (home_rooms : String → Option String)
    (pre : List FixedIt) (it : FixedIt) (rest : List FixedIt) (a : AState)
    (hhr : assign_home_classrooms sections room_list = some home_rooms)
    (hitems : fixedItems sections subjects = pre ++ it :: rest)
    (hpre : phaseA faculty_list room_list home_rooms pre
      { grid := initState, fixed_periods := fun _ _ => [], fixed_scheduled := 0 } =
      Except.ok a)
    (hfail : tryFixed faculty_list room_list home_rooms it a = none) :
    schedule_greedy cfg sections subjects faculty_list room_list section_batches =
      some (false, a.grid) := by
  unfold schedule_greedy
  rw [hhr]
  dsimp only
  rw [hitems, phaseA_error_of_failing_item faculty_list room_list home_rooms pre it rest
    _ a hpre hfail]

/-- C7 witness: one section, a yoga subject and no faculty; the very first
fixed obligation fails and the engine returns failure with the empty grid. -/
theorem C7_witness :
    schedule_greedy defaultConfig ["A"] [subjYoga] [] [roomR1] (fun _ => []) =
      some (false, initState) := by
  have h := C7_fixed_slot_failure_terminal defaultConfig ["A"] [subjYoga] []
    [roomR1] (fun _ => [])
    ((assign_home_classrooms ["A"] [roomR1]).getD (fun _ => none))
    [] ⟨"A", subjYoga, ("Wednesday", 6), 0⟩ []
    { grid := initState, fixed_periods := fun _ _ => [], fixed_scheduled := 0 }
    rfl rfl rfl rfl
  exact h

/-- An empty hard-violation list means in particular that the section-clash
and room-clash checks were both silent. -/
theorem check_empty_parts {p : TimeSlotEntry} {s : GState}
    (h : check_hard_constraints p s = []) :
    sectionClashViolations p s = [] ∧ roomClashViolations p s = [] := by
  unfold check_hard_constraints at h
  obtain ⟨h123, h4⟩ := List.append_eq_nil.mp h
  obtain ⟨h12, h3⟩ := List.append_eq_nil.mp h123
  obtain ⟨h1, h2⟩ := List.append_eq_nil.mp h12
  exact ⟨h1, h4⟩

/-- A silent room-clash check means the room list at the slot is empty. -/
theorem room_empty_of_no_viol {p : TimeSlotEntry} {s : GState}
    (h : roomClashViolations p s = []) :
    s.room_schedule p.room_number (p.day, p.period) = [] := by
  unfold roomClashViolations at h
  by_cases hc : (s.room_schedule p.room_number (p.day, p.period)).isEmpty = true
  · exact List.isEmpty_iff.mp hc
  · rw [if_pos (by simp [Bool.not_eq_true] at hc ⊢; exact hc)] at h
    exact absurd h (by simp)

/-- A silent section-clash check means the candidate entry is not already in
the slot list of its section. -/
theorem not_mem_sectionList_of_check {p : TimeSlotEntry} {s : GState}
    {es : List TimeSlotEntry}
    (hv : sectionClashViolations p s = [])
    (hlk : smLookup (s.timetable p.sect) (p.day, p.period) = some es) :
    p ∉ es := by
  intro hmem
  unfold sectionClashViolations at hv
  rw [hlk] at hv
  dsimp only at hv
  have hne : es.isEmpty = false := by
    cases es with
    | nil => exact absurd hmem (List.not_mem_nil _)
    | cons a as => rfl
  rw [if_neg (by simp [hne])] at hv
  by_cases h3 : truthyS p.batch = true
  · have hcond1 : ¬(((!es.any fun e => truthyS e.batch) && !truthyS p.batch) = true) := by
      simp [h3]
    rw [if_neg hcond1, if_pos h3] at hv
    have hany : (es.any fun e => e.batch == p.batch) = true :=
      List.any_eq_true.mpr ⟨p, hmem, by simp⟩
    rw [if_pos hany] at hv
    exact absurd hv (by simp)
  · have htp : truthyS p.batch = false := by
      cases hx : truthyS p.batch with
      | false => rfl
      | true => exact absurd hx h3
    by_cases ha : (es.any fun e => truthyS e.batch) = true
    · have hcond1 : ¬(((!es.any fun e => truthyS e.batch) && !truthyS p.batch) = true) := by
        simp [ha]
      rw [if_neg hcond1, if_neg h3] at hv
      rw [if_pos (by simp [htp, ha])] at hv
      exact absurd hv (by simp)
    · have hcond1 : (((!es.any fun e => truthyS e.batch) && !truthyS p.batch) = true) := by
        have hx : (es.any fun e => truthyS e.batch) = false := by
          cases hx2 : es.any fun e => truthyS e.batch with
          | false => rfl
          | true => exact absurd hx2 ha
        rw [hx, htp]
        rfl
      rw [if_pos hcond1] at hv
      exact absurd hv (by simp)

/-- C6 as amended: `remove_entry` after a successful `add_entry` restores the
state exactly, provided the faculty index at the slot did not already hold a
copy of the entry and the section slot map held no empty binding at the slot
(both hold in any state built by the paired add/remove discipline — the
counterexample shows restoration fails without the first proviso); and a
second `add_entry` of an entry already present in its section slot list is
always rejected. -/
theorem C6_add_remove_inverse (p : TimeSlotEntry) (s s2 : GState)
    (hfac : p ∉ s.teacher_schedule p.faculty_id (p.day, p.period))
    (hne : smLookup (s.timetable p.sect) (p.day, p.period) ≠ some [])
    (hadd : add_entry p s = some s2) :
    remove_entry p s2 = s ∧
    ∀ (q : TimeSlotEntry) (t : GState),
      q ∈ smGetD (t.timetable q.sect) (q.day, q.period) → add_entry q t = none := by
  constructor
  · have hchk : check_hard_constraints p s = [] := by
      unfold add_entry at hadd
      by_cases hc : (check_hard_constraints p s).isEmpty = true
      · exact List.isEmpty_iff.mp hc
      · rw [if_neg hc] at hadd
        exact absurd hadd (by simp)
    obtain ⟨hsecviol, hroomviol⟩ := check_empty_parts hchk
    have hroom : s.room_schedule p.room_number (p.day, p.period) = [] :=
      room_empty_of_no_viol hroomviol
    have hbig : s2 =
        { timetable := fun sec =>
            if sec = p.sect then smAppend (s.timetable sec) (p.day, p.period) p
            else s.timetable sec
          teacher_schedule := fun f k =>
            if f = p.faculty_id ∧ k = (p.day, p.period) then
              s.teacher_schedule f k ++ [p]
            else s.teacher_schedule f k
          room_schedule := fun r k =>
            if r = p.room_number ∧ k = (p.day, p.period) then
              s.room_schedule r k ++ [p]
            else s.room_schedule r k
          subject_hours_allocated := fun sec c =>
            if sec = p.sect ∧ c = p.subject_code then
              s.subject_hours_allocated sec c + 1
            else s.subject_hours_allocated sec c } := by
      unfold add_entry at hadd
      rw [if_pos (by simp [hchk])] at hadd
      exact (Option.some_inj.mp hadd).symm
    subst hbig
    have hext : ∀ (a b : GState), a.timetable = b.timetable →
        a.teacher_schedule = b.teacher_schedule →
        a.room_schedule = b.room_schedule →
        a.subject_hours_allocated = b.subject_hours_allocated → a = b := by
      intro a b h1 h2 h3 h4
      cases a
      cases b
      cases h1
      cases h2
      cases h3
      cases h4
      rfl
    apply hext
    · funext sec
      show (if sec = p.sect then
          smRemoveEntry (if sec = p.sect then
              smAppend (s.timetable sec) (p.day, p.period) p
            else s.timetable sec) (p.day, p.period) p
        else (if sec = p.sect then smAppend (s.timetable sec) (p.day, p.period) p
          else s.timetable sec)) = s.timetable sec
      by_cases hs : sec = p.sect
      · rw [if_pos hs, if_pos hs]
        subst hs
        apply smRemoveEntry_smAppend
        intro es hlk
        exact ⟨not_mem_sectionList_of_check hsecviol hlk,
          fun hnil => hne (hnil ▸ hlk)⟩
      · rw [if_neg hs, if_neg hs]
    · funext f k
      show (if f = p.faculty_id ∧ k = (p.day, p.period) then
          ((if f = p.faculty_id ∧ k = (p.day, p.period) then
              s.teacher_schedule f k ++ [p]
            else s.teacher_schedule f k)).filter (fun x => !(x == p))
        else (if f = p.faculty_id ∧ k = (p.day, p.period) then
            s.teacher_schedule f k ++ [p]
          else s.teacher_schedule f k)) = s.teacher_schedule f k
      by_cases hfk : f = p.faculty_id ∧ k = (p.day, p.period)
      · rw [if_pos hfk, if_pos hfk]
        obtain ⟨rfl, rfl⟩ := hfk
        exact filter_ne_append hfac
      · rw [if_neg hfk, if_neg hfk]
    · funext r k
      show (if r = p.room_number ∧ k = (p.day, p.period) then
          ((if r = p.room_number ∧ k = (p.day, p.period) then
              s.room_schedule r k ++ [p]
            else s.room_schedule r k)).filter (fun x => !(x == p))
        else (if r = p.room_number ∧ k = (p.day, p.period) then
            s.room_schedule r k ++ [p]
          else s.room_schedule r k)) = s.room_schedule r k
      by_cases hrk : r = p.room_number ∧ k = (p.day, p.period)
      · rw [if_pos hrk, if_pos hrk]
        obtain ⟨rfl, rfl⟩ := hrk
        exact filter_ne_append (by rw [hroom]; exact List.not_mem_nil _)
      · rw [if_neg hrk, if_neg hrk]
    · funext sec c
      show (if sec = p.sect ∧ c = p.subject_code then
          (if sec = p.sect ∧ c = p.subject_code then
              s.subject_hours_allocated sec c + 1
            else s.subject_hours_allocated sec c) - 1
        else (if sec = p.sect ∧ c = p.subject_code then
            s.subject_hours_allocated sec c + 1
          else s.subject_hours_allocated sec c)) = s.subject_hours_allocated sec c
      by_cases hsc : sec = p.sect ∧ c = p.subject_code
      · rw [if_pos hsc, if_pos hsc]
        omega
      · rw [if_neg hsc, if_neg hsc]
  · intro q t hq
    have hqes : ∃ es, smLookup (t.timetable q.sect) (q.day, q.period) = some es ∧
        q ∈ es := by
      unfold smGetD at hq
      rcases hlk : smLookup (t.timetable q.sect) (q.day, q.period) with _ | es
      · rw [hlk] at hq
        exact absurd hq (List.not_mem_nil _)
      · rw [hlk] at hq
        exact ⟨es, rfl, hq⟩
    obtain ⟨es, hlk, hqmem⟩ := hqes
    have hcne : check_hard_constraints q t ≠ [] := by
      intro hc
      exact absurd hqmem
        (not_mem_sectionList_of_check (check_empty_parts hc).1 hlk)
    unfold add_entry
    rw [if_neg (by simpa [List.isEmpty_iff] using hcne)]

/-- C6 witness: the amended restoration applied to a clean concrete insertion
(the state is empty, so both provisos hold by computation). -/
theorem C6_witness :
    remove_entry entL1A1 ((add_entry entL1A1 initState).getD initState) = initState := by
  have h : add_entry entL1A1 initState =
      some ((add_entry entL1A1 initState).getD initState) := rfl
  exact (C6_add_remove_inverse entL1A1 initState
    ((add_entry entL1A1 initState).getD initState)
    (by simp [initState]) (by simp [initState, smLookup]) h).1

/-- C3 as amended: the hard-constraint check of the scheduler reports a
teacher conflict for a candidate p precisely when some existing entry of the
candidate faculty at the slot fails the condition "both batch tags truthy and
same section"; in particular acceptance of a same-slot faculty overlap
requires neither a shared subject code nor distinct batch tags (the validator
additionally demands the shared subject code, but distinctness is checked by
neither). -/
theorem C3_teacher_rule_characterisation (p : TimeSlotEntry) (s : GState) :
    HV.teacherBusy ∈ check_hard_constraints p s ↔
      ∃ e ∈ s.teacher_schedule p.faculty_id (p.day, p.period),
        ¬(truthyS p.batch = true ∧ truthyS e.batch = true ∧ p.sect = e.sect) := by
  unfold check_hard_constraints
  simp only [List.mem_append, teacherBusy_not_mem_sectionClash,
    teacherBusy_not_mem_theoryTwice, teacherBusy_not_mem_roomClash,
    or_false, false_or]
  unfold teacherClashViolations
  by_cases hc : (s.teacher_schedule p.faculty_id (p.day, p.period)).any
      (fun e => !(truthyS p.batch && truthyS e.batch && p.sect == e.sect)) = true
  · rw [if_pos hc]
    constructor
    · intro _
      obtain ⟨e, he, hfe⟩ := List.any_eq_true.mp hc
      refine ⟨e, he, ?_⟩
      intro hcon
      have hC : (p.sect == e.sect) = true := beq_iff_eq.mpr hcon.2.2
      rw [hcon.1, hcon.2.1, hC] at hfe
      simp at hfe
    · intro _
      simp
  · rw [if_neg hc]
    constructor
    · intro h
      exact absurd h (List.not_mem_nil _)
    · rintro ⟨e, he, hne⟩
      have hbool : (!(truthyS p.batch && truthyS e.batch && p.sect == e.sect)) = true := by
        cases hA : truthyS p.batch with
        | false => simp
        | true =>
          cases hB : truthyS e.batch with
          | false => simp
          | true =>
            cases hC : (p.sect == e.sect) with
            | false => simp
            | true => exact (hne ⟨hA, hB, beq_iff_eq.mp hC⟩).elim
      exact (hc (List.any_eq_true.mpr ⟨e, he, hbool⟩)).elim

/-- A candidate the selector loop retains (as survivor or fallback) with a
duration of 2 passed the two-hour-start guard, so the period is a legal lab
start. -/
theorem evalCandidate_duration2_canStart (cfg : Config) (s : GState)
    (sect day : String) (period : Int) (day_block : Int × Int) (rr : RR)
    (sbc : String → Option Subject) (sb : String → List String)
    (hr : String → Option String) (fl : List Faculty) (rl : List Room)
    (consec : Int) (code : String) (ch : Choice) (sc : Int) (ex : Bool)
    (h : evalCandidate cfg s sect day period day_block rr sbc sb hr fl rl consec
      code = some (ch, sc, ex))
    (hd : ch.duration = 2) : can_start_two_hour_block period = true := by
  unfold evalCandidate at h
  split at h
  · simp at h
  · rename_i subject hsbc
    dsimp only at h
    split at h
    · simp at h
    · split at h
      · simp at h
      · split at h
        · simp at h
        · rename_i hrem hth hguard
          have hsd : subject_duration subject = 2 := by
            split at h
            · split at h
              · simp at h
              · split at h
                · simp at h
                · injection h with h2
                  have hdd : subject_duration subject = ch.duration :=
                    congrArg (fun t => t.1.duration) h2
                  exact hdd.trans hd
            · split at h
              · simp at h
              · injection h with h2
                have hdd : subject_duration subject = ch.duration :=
                  congrArg (fun t => t.1.duration) h2
                exact hdd.trans hd
          cases hcs : can_start_two_hour_block period with
          | true => rfl
          | false =>
            exfalso
            apply hguard
            rw [hsd, hcs]
            simp

/-- The best/fallback accumulation keeps a property shared by every candidate
the loop body produces. -/
theorem selFold_invariant (f : String → Option (Choice × Int × Bool))
    (Q : Choice → Prop)
    (hf : ∀ c ch sc ex, f c = some (ch, sc, ex) → Q ch) :
    ∀ (l : List String) (best fallback : Option (Choice × Int)),
      (∀ b, best = some b → Q b.1) →
      (∀ b, fallback = some b → Q b.1) →
      (∀ b, (selFold f l best fallback).1 = some b → Q b.1) ∧
      (∀ b, (selFold f l best fallback).2 = some b → Q b.1) := by
  intro l
  induction l with
  | nil =>
    intro best fallback hb hfb
    exact ⟨hb, hfb⟩
  | cons c cs ih =>
    intro best fallback hb hfb
    unfold selFold
    cases hfc : f c with
    | none => exact ih best fallback hb hfb
    | some v =>
      obtain ⟨ch, sc, ex⟩ := v
      have hQ : Q ch := hf c ch sc ex hfc
      cases ex with
      | true =>
        refine ih best _ hb ?_
        intro b hbb
        revert hbb
        cases fallback with
        | none =>
          intro hbb
          injection hbb with hbb2
          have hQp : Q ((ch, sc) : Choice × Int).1 := hQ
          exact hbb2 ▸ hQp
        | some fc =>
          obtain ⟨fc1, fs⟩ := fc
          intro hbb
          dsimp only at hbb
          by_cases hgt : sc > fs
          · rw [if_pos hgt] at hbb
            injection hbb with hbb2
            have hQp : Q ((ch, sc) : Choice × Int).1 := hQ
            exact hbb2 ▸ hQp
          · rw [if_neg hgt] at hbb
            injection hbb with hbb2
            have hQp : Q ((fc1, fs) : Choice × Int).1 := hfb (fc1, fs) rfl
            exact hbb2 ▸ hQp
      | false =>
        refine ih _ fallback ?_ hfb
        intro b hbb
        revert hbb
        cases best with
        | none =>
          intro hbb
          injection hbb with hbb2
          have hQp : Q ((ch, sc) : Choice × Int).1 := hQ
          exact hbb2 ▸ hQp
        | some bc =>
          obtain ⟨bc1, bs⟩ := bc
          intro hbb
          dsimp only at hbb
          by_cases hgt : (sc > bs || (sc == bs && str_lt ch.subject.code
              bc1.subject.code)) = true
          · rw [if_pos hgt] at hbb
            injection hbb with hbb2
            have hQp : Q ((ch, sc) : Choice × Int).1 := hQ
            exact hbb2 ▸ hQp
          · rw [if_neg hgt] at hbb
            injection hbb with hbb2
            have hQp : Q ((bc1, bs) : Choice × Int).1 := hb (bc1, bs) rfl
            exact hbb2 ▸ hQp

/-- The promoted result of the candidate loop keeps any property shared by
every candidate the loop body produces. -/
theorem selBestFinal_invariant (f : String → Option (Choice × Int × Bool))
    (Q : Choice → Prop)
    (hf : ∀ c ch sc ex, f c = some (ch, sc, ex) → Q ch)
    (active : List String) (b : Choice × Int)
    (hb : selBestFinal f active = some b) : Q b.1 := by
  have hinv := selFold_invariant f Q hf active none none
    (fun b2 hb2 => absurd hb2 (by simp)) (fun b2 hb2 => absurd hb2 (by simp))
  unfold selBestFinal at hb
  rcases hfst : (selFold f active none none).1 with _ | b1
  · rw [hfst] at hb
    dsimp only at hb
    exact hinv.2 b hb
  · rw [hfst] at hb
    dsimp only at hb
    injection hb with hb2
    exact hb2 ▸ hinv.1 b1 hfst

/-- A selector choice of duration 2 implies the period is a legal two-hour
start. -/
theorem select_duration2_canStart (cfg : Config) (s : GState) (sect day : String)
    (period : Int) (day_block : Int × Int) (rr : RR)
    (sbc : String → Option Subject) (sb : String → List String)
    (hr : String → Option String) (fl : List Faculty) (rl : List Room)
    (consec : Int) (ch : Choice) (rr2 : RR)
    (h : select_subject_for_slot cfg s sect day period day_block rr sbc sb hr fl
      rl consec = some (ch, rr2))
    (hd : ch.duration = 2) : can_start_two_hour_block period = true := by
  unfold select_subject_for_slot at h
  dsimp only at h
  split at h
  · simp at h
  · rcases hbf : selBestFinal
        (evalCandidate cfg s sect day period day_block rr sbc sb hr fl rl consec)
        (rr.codes.filter (fun c => rr.remaining c > 0)) with _ | pair
    · rw [hbf] at h
      simp at h
    · rw [hbf] at h
      obtain ⟨ch0, sc0⟩ := pair
      dsimp only at h
      injection h with h2
      have hch : ch0 = ch := congrArg (fun t => t.1) h2
      have hQ := selBestFinal_invariant
        (evalCandidate cfg s sect day period day_block rr sbc sb hr fl rl consec)
        (fun c => c.duration = 2 → can_start_two_hour_block period = true)
        (fun c ch2 sc2 ex2 hfc hd2 =>
          evalCandidate_duration2_canStart cfg s sect day period day_block rr sbc
            sb hr fl rl consec c ch2 sc2 ex2 hfc hd2)
        (rr.codes.filter (fun c => rr.remaining c > 0)) (ch0, sc0) hbf
      exact hQ (hch ▸ hd)

/-- Every slot the backtracking enumerator admits for a two-period lab starts
at period 1, 3, 5 or 6 (default 7-period day). -/
theorem validSlots_lab2_starts (s : GState) (sect : String) (subject : Subject)
    (is_batch_lab : Bool) (d : String) (p : Int)
    (hlab : subject.subject_type = "lab")
    (hmem : (d, p) ∈ get_valid_slots_for_item defaultConfig s sect subject 2
      is_batch_lab) :
    p = 1 ∨ p = 3 ∨ p = 5 ∨ p = 6 := by
  unfold get_valid_slots_for_item at hmem
  rw [List.mem_flatten] at hmem
  obtain ⟨L, hL, hmemL⟩ := hmem
  obtain ⟨day, hday, hLeq⟩ := List.mem_map.mp hL
  subst hLeq
  obtain ⟨pp, hpp, heq⟩ := List.mem_map.mp hmemL
  have hp : pp = p := congrArg Prod.snd heq
  rw [hp] at hpp
  rw [List.mem_filter] at hpp
  obtain ⟨hrange, havail⟩ := hpp
  rw [mem_intRange] at hrange
  have hrange2 : 1 ≤ p ∧ p < 7 := by
    refine ⟨hrange.1, ?_⟩
    have := hrange.2
    norm_num [defaultConfig] at this
    exact this
  unfold slotAllAvailable at havail
  dsimp only at havail
  have hgate : (decide ((2 : Int) > 1) && (subject.subject_type == "lab")) = true := by
    simp [hlab]
  rw [if_pos hgate] at havail
  by_cases hp24 : (p == 2 || p == 4) = true
  · rw [if_pos hp24] at havail
    have hfals : ¬(((false && (subject.subject_type == "lab")) &&
        decide ((2 : Int) > 1)) = true) := by simp
    rw [if_neg hfals] at havail
    exact absurd havail (by simp)
  · have hne24 : ¬(p = 2) ∧ ¬(p = 4) := by
      simpa using hp24
    omega

/-- C4 as amended: every lab the greedy selector schedules as a two-period
block starts at a period in {1, 3, 5} (the selector enforces
`can_start_two_hour_block`, which holds exactly there), but the backtracking
slot enumerator also admits start 6 for a two-period lab — pair (6, 7) —
which the claim (and the validator, which flags such starts) forbids; its
admitted starts are exactly within {1, 3, 5, 6}. -/
theorem C4_lab_starts (cfg : Config) (s : GState) (sect day : String)
    (period : Int) (day_block : Int × Int) (rr : RR)
    (sbc : String → Option Subject) (sb : String → List String)
    (hr : String → Option String) (fl : List Faculty) (rl : List Room)
    (consec : Int) (ch : Choice) (rr2 : RR)
    (hsel : select_subject_for_slot cfg s sect day period day_block rr sbc sb hr
      fl rl consec = some (ch, rr2))
    (hdur : ch.duration = 2) :
    (period = 1 ∨ period = 3 ∨ period = 5) ∧
    (∀ (s2 : GState) (sect2 : String) (subject : Subject) (b : Bool)
       (d : String) (p : Int), subject.subject_type = "lab" →
       (d, p) ∈ get_valid_slots_for_item defaultConfig s2 sect2 subject 2 b →
       p = 1 ∨ p = 3 ∨ p = 5 ∨ p = 6) ∧
    ("Monday", 6) ∈ get_valid_slots_for_item defaultConfig initState "A" subjL1
      2 false := by
  refine ⟨?_, ?_, by decide⟩
  · have hcs := select_duration2_canStart cfg s sect day period day_block rr sbc
      sb hr fl rl consec ch rr2 hsel hdur
    unfold can_start_two_hour_block at hcs
    have h2 : (period = 1 ∨ period = 3) ∨ period = 5 := by simpa using hcs
    tauto
  · intro s2 sect2 subject b d p hlab hmem
    exact validSlots_lab2_starts s2 sect2 subject b d p hlab hmem

/-- C4 counterexample: on the empty grid the backtracking enumerator offers
(Monday, 6) as a start for a two-period lab — a pair (6, 7) outside {1, 3, 5}
— and the validator flags exactly such a start as a hard lab-block violation,
so the claimed invariant fails for the backtracking path. -/
theorem C4_counterexample :
    ("Monday", 6) ∈ get_valid_slots_for_item defaultConfig initState "A" subjL1
      2 false ∧
    can_start_two_hour_block 6 = false := ⟨by decide, by decide⟩

/-- C4 witness: the amended theorem applied to a concrete selector run that
chooses the two-period lab at (Monday, 1). -/
theorem C4_witness : (1 : Int) = 1 ∨ (1 : Int) = 3 ∨ (1 : Int) = 5 := by
  have hd : (selC4.getD dfltChoice).1.duration = 2 := by decide
  have hsel : select_subject_for_slot defaultConfig initState "A" "Monday" 1
      (1, 7) rrL (subjectsByCode [subjL1]) (fun _ => ["A1", "A2", "A3"])
      (fun _ => none) [facF1] labRooms 0 =
      some ((selC4.getD dfltChoice).1, (selC4.getD dfltChoice).2) := rfl
  exact (C4_lab_starts defaultConfig initState "A" "Monday" 1 (1, 7) rrL
    (subjectsByCode [subjL1]) (fun _ => ["A1", "A2", "A3"]) (fun _ => none)
    [facF1] labRooms 0 (selC4.getD dfltChoice).1 (selC4.getD dfltChoice).2
    hsel hd).1

end Timetable
